import Mathlib

/-!
Verification development for the podcast generation pipeline
(`podcast_pipeline.py` and `providers/elevenlabs.py`, `providers/cartesia.py`).

Strings are modelled as `List Char`.  Python string primitives
(`strip`, `find`, `split`, `lower`, `upper`, `replace`) are embedded as
executable functions below; each pipeline function is translated from the
source file and line range named in its doc comment.
-/

namespace Podcast

/-- Python whitespace (`str.strip`, regex class for blank skipping): space,
tab, newline, carriage return, vertical tab, form feed. -/
def isPyWs (c : Char) : Bool :=
  c = ' ' || c = '\t' || c = '\n' || c = '\r' || c = '\x0b' || c = '\x0c'

/-- ASCII lowercasing, the effect of Python `str.lower` on the ASCII text
handled by the pipeline. -/
def lowChar (c : Char) : Char :=
  if 'A' ≤ c ∧ c ≤ 'Z' then Char.ofNat (c.toNat + 32) else c

/-- ASCII uppercasing, the effect of Python `str.upper` on ASCII text. -/
def upChar (c : Char) : Char :=
  if 'a' ≤ c ∧ c ≤ 'z' then Char.ofNat (c.toNat - 32) else c

/-- Python `s.lower()`. -/
def pyLower (s : List Char) : List Char := s.map lowChar

/-- Python `s.upper()`. -/
def pyUpper (s : List Char) : List Char := s.map upChar

/-- Python `s.lstrip()`. -/
def lstrip (s : List Char) : List Char := s.dropWhile isPyWs

/-- Python `s.rstrip()`. -/
def rstrip (s : List Char) : List Char := (s.reverse.dropWhile isPyWs).reverse

/-- Python `s.strip()`. -/
def pyStrip (s : List Char) : List Char := rstrip (lstrip s)

/-- Test whether `pat` is a literal prefix of `s`. -/
def leadsWith : List Char → List Char → Bool
  | [], _ => true
  | _ :: _, [] => false
  | a :: as, b :: bs => a = b && leadsWith as bs

/-- Test whether `pat` (given lowercase) is a case-insensitive prefix of `s`
(Python regex matching with `re.IGNORECASE`). -/
def leadsWithCI : List Char → List Char → Bool
  | [], _ => true
  | _ :: _, [] => false
  | a :: as, b :: bs => a = lowChar b && leadsWithCI as bs

/-- Python `s.find(pat)`: index of the first occurrence of `pat` in `s`,
`none` standing for the -1 result. -/
def findSub (pat : List Char) : List Char → Option Nat
  | [] => if pat = [] then some 0 else none
  | s@(_ :: rest) =>
      if leadsWith pat s then some 0 else (findSub pat rest).map (· + 1)

/-- Python `pat in s` (substring containment). -/
def containsSub (pat s : List Char) : Bool := (findSub pat s).isSome

/-- Index of the first case-insensitive occurrence of `pat` (given lowercase)
in `s`. -/
def findSubCI (pat : List Char) : List Char → Option Nat
  | [] => if pat = [] then some 0 else none
  | s@(_ :: rest) =>
      if leadsWithCI pat s then some 0 else (findSubCI pat rest).map (· + 1)

/-- Case-insensitive substring containment. -/
def containsCI (pat s : List Char) : Bool := (findSubCI pat s).isSome

/-- Python `s.split(sep)` restricted to the newline separator:
`s.split('\n')`, keeping empty pieces. -/
def splitNl : List Char → List (List Char)
  | [] => [[]]
  | c :: rest =>
      if c = '\n' then [] :: splitNl rest
      else
        match splitNl rest with
        | l :: ls => (c :: l) :: ls
        | [] => [[c]]

/-- Python `'\n'.join(lines)`. -/
def joinNl (lines : List (List Char)) : List Char := List.intercalate ['\n'] lines

/-- Scanner for `s.replace(pat, '')`: `skip` counts characters of a matched
occurrence still to be deleted, so the recursion consumes one character per
step. -/
def eraseAllGo (pat : List Char) : Nat → List Char → List Char
  | _, [] => []
  | skip + 1, _ :: rest => eraseAllGo pat skip rest
  | 0, c :: rest =>
      if 1 ≤ pat.length ∧ leadsWith pat (c :: rest) then
        eraseAllGo pat (pat.length - 1) rest
      else c :: eraseAllGo pat 0 rest

/-- Python `s.replace(pat, '')` for a nonempty literal `pat`: delete every
(left-to-right, non-overlapping) occurrence. -/
def eraseAll (pat : List Char) (s : List Char) : List Char := eraseAllGo pat 0 s

/-- Python slice `s[a:b]`. -/
def pySlice (a b : Nat) (s : List Char) : List Char := (s.take b).drop a

/-! ## Chunker (`podcast_pipeline.py` 1642-1662, `providers/elevenlabs.py` 180-200)

`chunk_dialogue` groups dialogue inputs into request-sized batches by
character count.  The two copies in the source are line-for-line identical;
one embedding serves both. -/

/-- One dialogue input as built for the synthesis request payload:
`{'text': ..., 'voice_id': ..., 'voice_settings': ...}`.  Only `text` and
`voice_id` matter to the chunker and the claims. -/
structure DialogueInput where
  voice_id : String
  text : List Char
deriving DecidableEq, Repr

/-- Loop body of `chunk_dialogue`: `current_chunk` and `current_length`
thread the loop state; closed chunks accumulate in order. -/
def chunkGo (max_chars : Nat) :
    List DialogueInput → List DialogueInput → Nat → List (List DialogueInput)
  | [], cur, _ => if cur ≠ [] then [cur] else []
  | item :: rest, cur, len =>
      if max_chars < len + item.text.length ∧ cur ≠ [] then
        cur :: chunkGo max_chars rest [item] item.text.length
      else
        chunkGo max_chars rest (cur ++ [item]) (len + item.text.length)

/-- Python `chunk_dialogue(inputs, max_chars=4500)`: split dialogue inputs
into chunks under the character limit (`podcast_pipeline.py:1642`,
`providers/elevenlabs.py:180`). -/
def chunk_dialogue (inputs : List DialogueInput) (max_chars : Nat := 4500) :
    List (List DialogueInput) :=
  chunkGo max_chars inputs [] 0

/-- Summed text length of a chunk. -/
def chunkLen (chunk : List DialogueInput) : Nat :=
  (chunk.map (fun item => item.text.length)).sum

/-- A chunk is within budget, or is a single oversize segment. -/
def GoodChunk (max_chars : Nat) (chunk : List DialogueInput) : Prop :=
  chunkLen chunk ≤ max_chars ∨ ∃ x, chunk = [x] ∧ max_chars < x.text.length

/-! ## Section planner (`podcast_pipeline.py` 885-891 and 711-715)

`generate_script_multi_call` and `generate_outline` both compute
`num_sections = math.ceil(word_count / words_per_call)` and
`words_per_section = int((word_count / num_sections) * overshoot_factor)`.
Rational arithmetic stands in for Python float arithmetic. -/

/-- Python `int(q)`: truncation toward zero. -/
def pyInt (q : ℚ) : ℤ := if q < 0 then -⌊-q⌋ else ⌊q⌋

/-- Python `num_sections = math.ceil(word_count / words_per_call)`
(`podcast_pipeline.py:890`). -/
def num_sections (word_count words_per_call : ℕ) : ℤ :=
  ⌈(word_count : ℚ) / (words_per_call : ℚ)⌉

/-- Python `words_per_section = int((word_count / num_sections) *
overshoot_factor)` (`podcast_pipeline.py:891`). -/
def words_per_section (word_count words_per_call : ℕ) (overshoot_factor : ℚ) : ℤ :=
  pyInt (((word_count : ℚ) / ((num_sections word_count words_per_call : ℤ) : ℚ))
    * overshoot_factor)

/-- The rounding formula the specification states for `words_per_section`:
`round((W / num_sections) * f)`. -/
def spec_words_per_section (word_count words_per_call : ℕ) (overshoot_factor : ℚ) : ℤ :=
  round (((word_count : ℚ) / ((num_sections word_count words_per_call : ℤ) : ℚ))
    * overshoot_factor)

/-! ## Synthesis retry loops (`providers/elevenlabs.py` 313-344,
`providers/cartesia.py` 658-687, `podcast_pipeline.py` 1770-1851)

One network attempt is an index into an oracle `net : Nat → NetResponse`
giving the outcome of that attempt.  Each loop returns the audio result and
the number of attempts actually issued. -/

/-- Outcome of one `requests.post` call: an HTTP response with status code
and body, a connection-level error (`requests.exceptions.ConnectionError`,
`ChunkedEncodingError`, `ConnectionResetError`), or a read timeout
(`requests.exceptions.Timeout`). -/
inductive NetResponse where
  | status (code : Nat) (body : List Nat)
  | connectionError
  | timeout
deriving DecidableEq, Repr

/-- Retry loop of `ElevenLabsProvider.generate_audio`
(`providers/elevenlabs.py:313-344`): `for attempt in range(3)`.  A non-200
status prints, retries on exact 500 when attempts remain, and otherwise
calls `raise_for_status()`, whose `HTTPError` (a `RequestException`) lands
in the same retry handler as timeouts and connection errors.
`raise_for_status` raises only for codes in `[400, 600)`; other non-200
codes fall through to the audio-collecting path. -/
def elevenlabsChunkTry (net : Nat → NetResponse) :
    (fuel : Nat) → (attempt : Nat) → Option (List Nat) × Nat
  | 0, attempt => (none, attempt)
  | fuel + 1, attempt =>
      match net attempt with
      | .status code body =>
          if code = 200 then (some body, attempt + 1)
          else if code = 500 ∧ attempt < 2 then elevenlabsChunkTry net fuel (attempt + 1)
          else if 400 ≤ code ∧ code < 600 then
            if attempt < 2 then elevenlabsChunkTry net fuel (attempt + 1)
            else (none, attempt + 1)
          else (some body, attempt + 1)
      | .connectionError =>
          if attempt < 2 then elevenlabsChunkTry net fuel (attempt + 1)
          else (none, attempt + 1)
      | .timeout =>
          if attempt < 2 then elevenlabsChunkTry net fuel (attempt + 1)
          else (none, attempt + 1)

/-- The whole `for attempt in range(3)` loop for one ElevenLabs chunk.  The
fuel mirrors the three loop iterations; the body always returns by attempt
index 2, so the fuel clause is never reached. -/
def elevenlabsChunkRun (net : Nat → NetResponse) : Option (List Nat) × Nat :=
  elevenlabsChunkTry net 3 0

/-- Retry loop of `generate_audio_legacy` (`podcast_pipeline.py:1770-1851`):
`max_retries = 3`; identical classification to the provider loop — a
non-200/non-500 status raises `HTTPError`, which the
`RequestException`/`Timeout`/generic handlers all retry while attempts
remain. -/
def legacyChunkTry (net : Nat → NetResponse) :
    (fuel : Nat) → (attempt : Nat) → Option (List Nat) × Nat
  | 0, attempt => (none, attempt)
  | fuel + 1, attempt =>
      match net attempt with
      | .status code body =>
          if code = 200 then (some body, attempt + 1)
          else if code = 500 ∧ attempt < 2 then legacyChunkTry net fuel (attempt + 1)
          else if 400 ≤ code ∧ code < 600 then
            if attempt < 2 then legacyChunkTry net fuel (attempt + 1)
            else (none, attempt + 1)
          else (some body, attempt + 1)
      | .connectionError =>
          if attempt < 2 then legacyChunkTry net fuel (attempt + 1)
          else (none, attempt + 1)
      | .timeout =>
          if attempt < 2 then legacyChunkTry net fuel (attempt + 1)
          else (none, attempt + 1)

/-- The whole `for attempt in range(max_retries)` loop for one legacy
chunk. -/
def legacyChunkRun (net : Nat → NetResponse) : Option (List Nat) × Nat :=
  legacyChunkTry net 3 0

/-- Retry loop of `CartesiaProvider.generate_audio`
(`providers/cartesia.py:658-687`): `max_retries = 3`.  A 200 succeeds; any
other status returns `None` immediately (no retry, 5xx included); only
connection-level errors are retried with exponential backoff; any other
exception (a read timeout included) hits the generic handler and returns
`None`. -/
def cartesiaSegmentTry (net : Nat → NetResponse) :
    (fuel : Nat) → (attempt : Nat) → Option (List Nat) × Nat
  | 0, attempt => (none, attempt)
  | fuel + 1, attempt =>
      match net attempt with
      | .status code body =>
          if code = 200 then (some body, attempt + 1) else (none, attempt + 1)
      | .connectionError =>
          if attempt < 2 then cartesiaSegmentTry net fuel (attempt + 1)
          else (none, attempt + 1)
      | .timeout => (none, attempt + 1)

/-- The whole `for attempt in range(max_retries)` loop for one Cartesia
segment. -/
def cartesiaSegmentRun (net : Nat → NetResponse) : Option (List Nat) × Nat :=
  cartesiaSegmentTry net 3 0

/-! ## Transition synthesizer (`podcast_pipeline.py` 1060-1144)

`parse_script_to_segments` tags each speaker-labelled line;
`synthesize_single_transition` asks the generation service to smooth the
window and falls back to plain concatenation on failure. -/

/-- One parsed script segment: `(speaker, full_line)` tuple of
`parse_script_to_segments` (`podcast_pipeline.py:1060-1082`). -/
structure ScriptSeg where
  speaker : Char
  line : List Char
deriving DecidableEq, Repr

/-- Python `parse_script_to_segments(script)`
(`podcast_pipeline.py:1060-1082`). -/
def parse_script_to_segments (script : List Char) : List ScriptSeg :=
  (splitNl script).filterMap (fun line =>
    let l := pyStrip line
    if l.isEmpty then none
    else
      let low := pyLower l
      if leadsWith "speaker a:".toList low || leadsWith "speaker b:".toList low then
        some ⟨if containsSub "speaker a:".toList low then 'A' else 'B', l⟩
      else if containsSub "**speaker a".toList low
          || containsSub "**speaker b".toList low then
        some ⟨if containsSub "speaker a".toList low then 'A' else 'B', l⟩
      else none)

/-- Collision detection of `synthesize_single_transition`
(`podcast_pipeline.py:1093-1096`): the last speaker of the before window
equals the first speaker of the after window (both `None` counts as
equal, as in Python). -/
def transitionCollision (segments_before segments_after : List ScriptSeg) : Bool :=
  decide ((segments_before.getLast?).map ScriptSeg.speaker
    = (segments_after.head?).map ScriptSeg.speaker)

/-- Python `synthesize_single_transition` (`podcast_pipeline.py:1085-1144`).
The generation service is an oracle from the collision flag (the only
structural variation in the prompt) to `some` rewritten text or `none` for
a raised exception; on failure the except branch returns
`before_text + '\n' + after_text`. -/
def synthesize_single_transition (svc : Bool → Option (List Char))
    (segments_before segments_after : List ScriptSeg) : List Char :=
  let collision := transitionCollision segments_before segments_after
  let before_text := joinNl (segments_before.map ScriptSeg.line)
  let after_text := joinNl (segments_after.map ScriptSeg.line)
  match svc collision with
  | some t => pyStrip t
  | none => before_text ++ '\n' :: after_text

/-! ## ElevenLabs-format dialogue parsing (`providers/elevenlabs.py`
125-178 and its line-for-line twin `parse_script_to_dialogue` in
`podcast_pipeline.py` 1567-1639)

The voice-id dictionary indexing reduces to tagging each segment with its
speaker; segment text is kept verbatim, bracket tags included. -/

/-- Speaker keys `'speaker_a'` / `'speaker_b'`. -/
inductive SpeakerTag where
  | speaker_a
  | speaker_b
deriving DecidableEq, Repr

/-- One emitted dialogue entry `{'voice_id': ..., 'text': ...}`, with the
voice id abstracted to the speaker it denotes. -/
structure ElSeg where
  speaker : SpeakerTag
  text : List Char
deriving DecidableEq, Repr

/-- Python `line.split(':', 1)[-1]`. -/
def splitColonTail (l : List Char) : List Char :=
  match findSub [':'] l with
  | some i => l.drop (i + 1)
  | none => l

/-- Text taken from a speaker line:
`line.split(':', 1)[-1].strip().replace('**', '').strip()`. -/
def speakerLineText (l : List Char) : List Char :=
  pyStrip (eraseAll ['*', '*'] (pyStrip (splitColonTail l)))

/-- Closing out the current segment: `if current_text and current_speaker:
dialogue.append({'voice_id': ..., 'text': ' '.join(current_text).strip()})`. -/
def elFlush (cur : Option SpeakerTag) (txt : List (List Char)) : List ElSeg :=
  match cur with
  | some sp => if txt.isEmpty then [] else [⟨sp, pyStrip (List.intercalate [' '] txt)⟩]
  | none => []

/-- Line loop of the ElevenLabs-format parser: `cur` and `txt` carry
`current_speaker` and `current_text`. -/
def elParseGo : List (List Char) → Option SpeakerTag → List (List Char) → List ElSeg
  | [], cur, txt => elFlush cur txt
  | line :: rest, cur, txt =>
      let l := pyStrip line
      if l.isEmpty then elParseGo rest cur txt
      else
        let low := pyLower l
        let isA := containsSub "speaker a:".toList low
          || containsSub "**speaker a".toList low
          || containsSub "speaker a -".toList low
        let isB := containsSub "speaker b:".toList low
          || containsSub "**speaker b".toList low
          || containsSub "speaker b -".toList low
        if isA then
          let t := speakerLineText l
          elFlush cur txt ++ elParseGo rest (some .speaker_a) (if t.isEmpty then [] else [t])
        else if isB then
          let t := speakerLineText l
          elFlush cur txt ++ elParseGo rest (some .speaker_b) (if t.isEmpty then [] else [t])
        else
          match cur with
          | some _ =>
              if l.head? = some '#' || leadsWith ['-', '-', '-'] l then
                elParseGo rest cur txt
              else elParseGo rest cur (txt ++ [l])
          | none => elParseGo rest cur txt

/-- Python `parse_script_to_dialogue(script, voice_ids)`
(`providers/elevenlabs.py:125-178`, `podcast_pipeline.py:1567-1639`);
returns `None` when no segment was found. -/
def parse_script_to_dialogue (script : List Char) : Option (List ElSeg) :=
  let dialogue := elParseGo (splitNl script) none []
  if dialogue.isEmpty then none else some dialogue

/-! ## Annotation-tag matching (regex `\[([^\]]+)\]`)

A complete annotation tag is an opening bracket, one or more characters
other than a closing bracket, then a closing bracket. -/

/-- Regex `\[([^\]]+)\]` matches at the head of `s`. -/
def tagAtHead : List Char → Bool
  | [] => false
  | c :: rest =>
      c = '[' && !(rest.takeWhile (· ≠ ']')).isEmpty
        && !(rest.dropWhile (· ≠ ']')).isEmpty

/-- Some complete annotation tag occurs in `s`. -/
def hasTag : List Char → Bool
  | [] => false
  | c :: rest => tagAtHead (c :: rest) || hasTag rest

/-- Scanner for `re.sub(r'\[([^\]]+)\]', '', text)`: at a complete tag the
bracket is consumed and `skip` deletes the inner text and the closing
bracket; otherwise the character is kept. -/
def removeTagsGo : Nat → List Char → List Char
  | _, [] => []
  | skip + 1, _ :: rest => removeTagsGo skip rest
  | 0, c :: rest =>
      if tagAtHead (c :: rest) then
        removeTagsGo ((rest.takeWhile (· ≠ ']')).length + 1) rest
      else c :: removeTagsGo 0 rest

/-- Python `re.sub(r'\[([^\]]+)\]', '', text)`: delete every complete tag,
scanning left to right. -/
def removeTags (s : List Char) : List Char := removeTagsGo 0 s

/-- Scanner for `re.finditer(r'\[([^\]]+)\]', text)`: `skip` jumps over the
remainder of a recorded tag. -/
def findTagsGo : (skip : Nat) → (off : Nat) → List Char → List (List Char × Nat × Nat)
  | _, _, [] => []
  | skip + 1, off, _ :: rest => findTagsGo skip (off + 1) rest
  | 0, off, c :: rest =>
      if tagAtHead (c :: rest) then
        (rest.takeWhile (· ≠ ']'), off, off + (rest.takeWhile (· ≠ ']')).length + 2)
          :: findTagsGo ((rest.takeWhile (· ≠ ']')).length + 1) (off + 1) rest
      else findTagsGo 0 (off + 1) rest

/-- Python `re.finditer(r'\[([^\]]+)\]', text)`: every tag with its inner
text, start offset, and end offset. -/
def findTags (s : List Char) : List (List Char × Nat × Nat) := findTagsGo 0 0 s

/-! ## Cartesia provider (`providers/cartesia.py`)

`_get_api_emotion_map` is a static dictionary from lowercase tag text to an
`(emotion, intensity)` pair or `None`; `_split_text_at_emotions` splits a
line at mid-sentence tags; `_extract_emotions` strips tags and maps them;
`parse_script_to_dialogue` walks the lines. -/

/-- Python `CartesiaProvider._get_api_emotion_map`
(`providers/cartesia.py:169-381`), transcribed entry for entry. -/
def api_emotion_map : List (String × Option (String × String)) := [
  ("excited", some ("positivity", "highest")),
  ("happy", some ("positivity", "high")),
  ("enthusiastic", some ("positivity", "highest")),
  ("content", some ("positivity", "high")),
  ("cheerful", some ("positivity", "high")),
  ("friendly", some ("positivity", "high")),
  ("warm", some ("positivity", "high")),
  ("calm", some ("positivity", "low")),
  ("peaceful", some ("positivity", "low")),
  ("grateful", some ("positivity", "high")),
  ("affectionate", some ("positivity", "high")),
  ("amused", some ("positivity", "high")),
  ("satisfied", some ("positivity", "high")),
  ("hopeful", some ("positivity", "high")),
  ("playful", some ("positivity", "high")),
  ("encouraging", some ("positivity", "high")),
  ("relieved", some ("positivity", "high")),
  ("delighted", some ("positivity", "high")),
  ("ecstatic", some ("positivity", "highest")),
  ("energetic", some ("positivity", "highest")),
  ("passionate", some ("positivity", "highest")),
  ("animated", some ("positivity", "high")),
  ("laughs", some ("positivity", "high")),
  ("chuckles", some ("positivity", "high")),
  ("giggles", some ("positivity", "high")),
  ("proud", some ("positivity", "high")),
  ("confident", some ("positivity", "high")),
  ("warmly", some ("positivity", "high")),
  ("tender", some ("positivity", "high")),
  ("loving", some ("positivity", "high")),
  ("adoring", some ("positivity", "high")),
  ("curious", some ("curiosity", "high")),
  ("questioning", some ("curiosity", "high")),
  ("interested", some ("curiosity", "high")),
  ("thoughtful", some ("curiosity", "high")),
  ("contemplative", some ("curiosity", "high")),
  ("analytical", some ("curiosity", "high")),
  ("pondering", some ("curiosity", "high")),
  ("reflective", some ("curiosity", "low")),
  ("intrigued", some ("curiosity", "high")),
  ("fascinated", some ("curiosity", "highest")),
  ("captivated", some ("curiosity", "high")),
  ("hmm", some ("curiosity", "low")),
  ("carefully", some ("curiosity", "low")),
  ("skeptical", some ("curiosity", "high")),
  ("wary", some ("curiosity", "low")),
  ("suspicious", some ("curiosity", "high")),
  ("doubtful", some ("curiosity", "high")),
  ("pensive", some ("curiosity", "high")),
  ("absorbed", some ("curiosity", "high")),
  ("surprised", some ("surprise", "high")),
  ("shocked", some ("surprise", "highest")),
  ("amazed", some ("surprise", "highest")),
  ("gasps", some ("surprise", "high")),
  ("wow", some ("surprise", "high")),
  ("alarmed", some ("surprise", "high")),
  ("realizing", some ("surprise", "high")),
  ("impressed", some ("surprise", "high")),
  ("astonished", some ("surprise", "highest")),
  ("stunned", some ("surprise", "highest")),
  ("awestruck", some ("surprise", "highest")),
  ("mesmerized", some ("surprise", "high")),
  ("bewildered", some ("surprise", "high")),
  ("confused", some ("surprise", "low")),
  ("perplexed", some ("surprise", "high")),
  ("sad", some ("sadness", "high")),
  ("sadly", some ("sadness", "high")),
  ("disappointed", some ("sadness", "high")),
  ("hurt", some ("sadness", "high")),
  ("guilty", some ("sadness", "high")),
  ("worried", some ("sadness", "high")),
  ("concerned", some ("sadness", "high")),
  ("nervous", some ("sadness", "high")),
  ("anxious", some ("sadness", "high")),
  ("stressed", some ("sadness", "high")),
  ("tense", some ("sadness", "high")),
  ("somber", some ("sadness", "high")),
  ("sighs", some ("sadness", "low")),
  ("quietly", some ("sadness", "low")),
  ("resigned", some ("sadness", "high")),
  ("wistful", some ("sadness", "low")),
  ("nostalgic", some ("sadness", "low")),
  ("melancholic", some ("sadness", "high")),
  ("dejected", some ("sadness", "high")),
  ("regretful", some ("sadness", "high")),
  ("longing", some ("sadness", "high")),
  ("yearning", some ("sadness", "high")),
  ("dismayed", some ("sadness", "high")),
  ("apprehensive", some ("sadness", "high")),
  ("uneasy", some ("sadness", "low")),
  ("distressed", some ("sadness", "high")),
  ("remorseful", some ("sadness", "high")),
  ("mortified", some ("sadness", "high")),
  ("uncertain", some ("sadness", "low")),
  ("hesitant", some ("sadness", "low")),
  ("insecure", some ("sadness", "high")),
  ("apologetic", some ("sadness", "low")),
  ("sympathetic", some ("sadness", "low")),
  ("understanding", some ("sadness", "low")),
  ("bored", some ("sadness", "low")),
  ("tired", some ("sadness", "low")),
  ("weary", some ("sadness", "high")),
  ("exhausted", some ("sadness", "high")),
  ("drained", some ("sadness", "high")),
  ("bashful", some ("sadness", "low")),
  ("shy", some ("sadness", "low")),
  ("timid", some ("sadness", "low")),
  ("sheepish", some ("sadness", "low")),
  ("angry", some ("anger", "high")),
  ("mad", some ("anger", "high")),
  ("outraged", some ("anger", "highest")),
  ("frustrated", some ("anger", "high")),
  ("annoyed", some ("anger", "high")),
  ("agitated", some ("anger", "high")),
  ("defensive", some ("anger", "high")),
  ("sarcastic", some ("anger", "low")),
  ("ironic", some ("anger", "low")),
  ("contempt", some ("anger", "high")),
  ("dismissive", some ("anger", "low")),
  ("determined", some ("anger", "high")),
  ("emphatic", some ("anger", "high")),
  ("urgent", some ("anger", "high")),
  ("urgently", some ("anger", "high")),
  ("pressing", some ("anger", "high")),
  ("groans", some ("anger", "low")),
  ("intensely", some ("anger", "high")),
  ("indignant", some ("anger", "high")),
  ("resentful", some ("anger", "high")),
  ("bitter", some ("anger", "high")),
  ("exasperated", some ("anger", "high")),
  ("irritated", some ("anger", "high")),
  ("cynical", some ("anger", "low")),
  ("mocking", some ("anger", "low")),
  ("bold", some ("anger", "low")),
  ("assertive", some ("anger", "high")),
  ("resolute", some ("anger", "high")),
  ("steadfast", some ("anger", "high")),
  ("panicked", some ("anger", "high")),
  ("frantic", some ("anger", "high")),
  ("desperate", some ("anger", "high")),
  ("scared", some ("anger", "high")),
  ("horrified", some ("anger", "high")),
  ("terrified", some ("anger", "highest")),
  ("gulps", some ("anger", "low")),
  ("neutral", none),
  ("professional", none),
  ("formal", none),
  ("serious", none),
  ("precisely", none),
  ("indifferent", none),
  ("nonchalant", none),
  ("casual", none),
  ("matter-of-fact", none),
  ("distant", none),
  ("switching gears", none),
  ("dramatic", some ("positivity", "highest")),
  ("teasing", some ("positivity", "high")),
  ("mischievous", some ("positivity", "high")),
  ("coy", some ("positivity", "low")),
  ("smug", some ("positivity", "high")),
  ("cocky", some ("positivity", "high")),
  ("building", some ("curiosity", "high")),
  ("building emotion", some ("positivity", "high")),
  ("confirming", some ("positivity", "low")),
  ("agreeing", some ("positivity", "low")),
  ("final push", some ("anger", "high")),
  ("reverent", some ("curiosity", "high")),
  ("lethargic", some ("sadness", "low")),
  ("apathetic", some ("sadness", "low")),
  ("uhh", some ("sadness", "low")),
  ("chuckling", some ("positivity", "high")),
  ("interrupting", none),
  ("overlapping", none),
  ("interjecting", none),
  ("fast-paced", none),
  ("slowly", none),
  ("pause", none),
  ("whispers", none),
  ("shouting", none),
  ("loudly", none),
  ("hesitates", none)]

/-- Python `self._get_api_emotion_map().get(t_lower)` followed by the
truthiness test `if api_emotion:` — a missing key and a `None` value are
treated alike. -/
def emotionLookup (tag : String) : Option (String × String) :=
  (api_emotion_map.lookup tag).join

/-- Mapping a list of raw tag texts to API emotions
(`providers/cartesia.py:142-148` and `159-164`): lowercase each tag, look
it up, keep only truthy values. -/
def mapEmotions (tags : List (List Char)) : List (String × String) :=
  tags.filterMap (fun t => emotionLookup (String.mk (pyLower t)))

/-- Python `CartesiaProvider._extract_emotions(text)`
(`providers/cartesia.py:430-458`). -/
def extract_emotions (text : List Char) : List (String × String) × List Char :=
  (mapEmotions ((findTags text).map (·.1)), pyStrip (removeTags text))

/-- The `first_non_tag_char` loop of `_split_text_at_emotions`
(`providers/cartesia.py:100-112`): repeatedly strip a leading bracket
group from `temp` and re-locate the stripped remainder in `text` with
`find` (-1 when absent, as in Python). -/
def fntcLoopF (text : List Char) :
    (fuel : Nat) → (temp : List Char) → (fntc : ℤ) → ℤ
  | 0, _, fntc => fntc
  | fuel + 1, temp, fntc =>
      if (pyStrip temp).head? = some '[' then
        match findSub [']'] (pyStrip temp) with
        | some eb =>
            if 0 < eb then
              fntcLoopF text fuel ((pyStrip temp).drop (eb + 1))
                (if (pyStrip ((pyStrip temp).drop (eb + 1))).isEmpty then (text.length : ℤ)
                 else
                   match findSub (pyStrip ((pyStrip temp).drop (eb + 1))) text with
                   | some i => (i : ℤ)
                   | none => -1)
            else fntc
        | none => fntc
      else fntc

/-- The whole loop, with fuel: every iteration strips at least a two
character bracket group off `temp`, so `temp.length + 1` iterations always
suffice and the fuel clause is never reached. -/
def fntcLoop (text : List Char) (temp : List Char) (fntc : ℤ) : ℤ :=
  fntcLoopF text (temp.length + 1) temp fntc

/-- Loop body over the mid-sentence tags of `_split_text_at_emotions`
(`providers/cartesia.py:134-152`): the state carries the collected
segments, the `current_emotions` raw tags, and `current_pos`; the text
before the tag is cleaned, appended when nonempty, and the tag opens the
next segment. -/
def splitFoldStep (text : List Char)
    (st : List (List (String × String) × List Char) × List (List Char) × Nat)
    (tg : List Char × Nat × Nat) :
    List (List (String × String) × List Char) × List (List Char) × Nat :=
  let cleanB := pyStrip (removeTags (pySlice st.2.2 tg.2.1 text))
  (if cleanB.isEmpty then st.1 else st.1 ++ [(mapEmotions st.2.1, cleanB)],
    [tg.1], tg.2.2)

/-- Python `CartesiaProvider._split_text_at_emotions(text)`
(`providers/cartesia.py:79-167`): returns `(api_emotions, clean_text)`
pairs, splitting at mid-sentence tags. -/
def splitTextAtEmotions (text : List Char) : List (List (String × String) × List Char) :=
  let tags := findTags text
  if tags.isEmpty then [([], pyStrip text)]
  else
    let fntc := fntcLoop text text 0
    let start_tags := (tags.filter (fun tg => (tg.2.1 : ℤ) < fntc)).map (·.1)
    let mid_tags := tags.filter (fun tg => fntc ≤ (tg.2.1 : ℤ))
    if mid_tags.isEmpty then
      let ec := extract_emotions text
      if (pyStrip ec.2).isEmpty then [] else [(ec.1, ec.2)]
    else
      let res := mid_tags.foldl (splitFoldStep text) ([], start_tags, 0)
      let cleanR := pyStrip (removeTags (text.drop res.2.2))
      let segs :=
        if cleanR.isEmpty then res.1 else res.1 ++ [(mapEmotions res.2.1, cleanR)]
      if segs.isEmpty then [([], pyStrip text)] else segs

/-- One Cartesia dialogue entry as built by `_create_segment`
(`providers/cartesia.py:460-497`): voice abstracted to the speaker, the
clean transcript, and the primary `__experimental_controls` emotion
(`emotions[0]` when the list is nonempty). -/
structure CartesiaSeg where
  speaker : SpeakerTag
  transcript : List Char
  emotion : Option (String × String)
deriving DecidableEq, Repr

/-- Python `CartesiaProvider._create_segment(speaker, text, emotions, ...)`. -/
def cartesia_create_segment (speaker : SpeakerTag) (text : List Char)
    (emotions : List (String × String)) : CartesiaSeg :=
  ⟨speaker, text, emotions.head?⟩

/-- Per-line handling inside `CartesiaProvider.parse_script_to_dialogue`
(`providers/cartesia.py:415-426`). -/
def cartesiaLineSegs (sp : SpeakerTag) (text_content : List Char) : List CartesiaSeg :=
  if text_content.isEmpty then []
  else
    (splitTextAtEmotions text_content).filterMap (fun seg =>
      if (pyStrip seg.2).isEmpty then none
      else some (cartesia_create_segment sp seg.2 seg.1))

/-- Python `CartesiaProvider.parse_script_to_dialogue(script, voice_ids)`
(`providers/cartesia.py:383-428`). -/
def cartesia_parse_script_to_dialogue (script : List Char) : List CartesiaSeg :=
  (splitNl script).flatMap (fun line =>
    let l := pyStrip line
    if l.isEmpty then []
    else if leadsWith "Speaker A:".toList l then
      cartesiaLineSegs .speaker_a (pyStrip (l.drop 10))
    else if leadsWith "Speaker B:".toList l then
      cartesiaLineSegs .speaker_b (pyStrip (l.drop 10))
    else [])

/-! ## Script normalizer (`podcast_pipeline.py` 1430-1517)

`clean_script_for_audio` is an ordered composition of regex transforms.
Each step is embedded as one function below, applied in source order. -/

/-- Regex `(?:Speaker [AB]:)` matches at the head of `s` (case-sensitive,
`podcast_pipeline.py:1447`). -/
def isLabelAt (s : List Char) : Bool :=
  leadsWith "Speaker A:".toList s || leadsWith "Speaker B:".toList s

/-- Position of the first speaker label (`re.search` of the label
pattern). -/
def findLabelIdx : List Char → Option Nat
  | [] => none
  | s@(_ :: rest) => if isLabelAt s then some 0 else (findLabelIdx rest).map (· + 1)

/-- Step 1 (`podcast_pipeline.py:1446-1452`): discard everything before the
first speaker label when one exists. -/
def cutBeforeFirstLabel (s : List Char) : List Char :=
  match findLabelIdx s with
  | some i => s.drop i
  | none => s

/-- Scanner for `re.sub(open + '.*?' + close, '', s, flags=DOTALL)`: at an
open tag with a close tag after it, the whole span is deleted (`skip`
counts its remaining characters); an open tag with no close after it can
never be part of a match, so the scan emits and moves on. -/
def removeEnclosedGo (openT closeT : List Char) : Nat → List Char → List Char
  | _, [] => []
  | skip + 1, _ :: rest => removeEnclosedGo openT closeT skip rest
  | 0, c :: rest =>
      if leadsWith openT (c :: rest) then
        match findSub closeT ((c :: rest).drop openT.length) with
        | some j => removeEnclosedGo openT closeT (openT.length + j + closeT.length - 1) rest
        | none => c :: removeEnclosedGo openT closeT 0 rest
      else c :: removeEnclosedGo openT closeT 0 rest

/-- Steps 2-4 (`podcast_pipeline.py:1455-1457`): `re.sub(open + '.*?' +
close, '', s, flags=DOTALL)` for a literal open/close pair — delete from
each leftmost open tag to the nearest close tag after it. -/
def removeEnclosed (openT closeT : List Char) (s : List Char) : List Char :=
  removeEnclosedGo openT closeT 0 s

/-- Verb alternation of the first and second meta-commentary regexes:
`(?:conduct|create|generate|search)`. -/
def metaVerbs1 : List (List Char) :=
  ["conduct".toList, "create".toList, "generate".toList, "search".toList]

/-- Verb alternation of the third meta-commentary regex:
`(?:conduct|create|generate)`. -/
def metaVerbs3 : List (List Char) :=
  ["conduct".toList, "create".toList, "generate".toList]

/-- Length of the first verb of `verbs` matching case-insensitively at the
head of `s`. -/
def matchVerbLen (verbs : List (List Char)) (s : List Char) : Option Nat :=
  (verbs.find? (fun v => leadsWithCI v s)).map List.length

/-- Regex fragment ` (?:verbs)` — a literal space then a verb. -/
def matchSpVerb (verbs : List (List Char)) : List Char → Option Nat
  | [] => none
  | c :: r => if c = ' ' then (matchVerbLen verbs r).map (· + 1) else none

/-- Regex fragment `ll? (?:verbs)` with greedy `l?` and backtracking. -/
def matchLl (verbs : List (List Char)) : List Char → Option Nat
  | [] => none
  | c :: rest =>
      if lowChar c = 'l' then
        match rest with
        | c2 :: r2 =>
            if lowChar c2 = 'l' then
              match matchSpVerb verbs r2 with
              | some k => some (2 + k)
              | none => (matchSpVerb verbs rest).map (· + 1)
            else (matchSpVerb verbs rest).map (· + 1)
        | [] => none
      else none

/-- Regex fragment `I'?ll? (?:verbs)` (case-insensitive). -/
def matchIll (verbs : List (List Char)) : List Char → Option Nat
  | [] => none
  | c :: rest =>
      if lowChar c = 'i' then
        match rest with
        | [] => (matchLl verbs rest).map (· + 1)
        | c2 :: r2 =>
            if c2 = '\'' then (matchLl verbs r2).map (· + 2)
            else (matchLl verbs rest).map (· + 1)
      else none

/-- Lead of `(?:^|\n)I'?ll? (?:conduct|create|generate|search)`
(`podcast_pipeline.py:1460`). -/
def leadIll (s : List Char) : Option Nat := matchIll metaVerbs1 s

/-- Lead of `(?:^|\n)Let me (?:conduct|create|generate|search)`
(`podcast_pipeline.py:1461`). -/
def leadLetMe (s : List Char) : Option Nat :=
  if leadsWithCI "let me ".toList s then (matchVerbLen metaVerbs1 (s.drop 7)).map (· + 7)
  else none

/-- Lead of `(?:^|\n)Now I'?ll? (?:conduct|create|generate)`
(`podcast_pipeline.py:1462`). -/
def leadNowIll (s : List Char) : Option Nat :=
  if leadsWithCI "now ".toList s then (matchIll metaVerbs3 (s.drop 4)).map (· + 4)
  else none

/-- Lookahead `(?=Speaker [AB]:|$)` under `re.IGNORECASE`: a
case-insensitive speaker label starts here, or this is the end of the
string, or the position just before a final newline. -/
def isLabelAtCI (s : List Char) : Bool :=
  leadsWithCI "speaker a:".toList s || leadsWithCI "speaker b:".toList s

/-- Scanner for `re.sub((?:^|\n)LEAD.*?(?=Speaker [AB]:|$), '', s,
flags=DOTALL|IGNORECASE)`.  `skip` counts still-to-delete characters of a
matched lead, `inMatch` is true while consuming the non-greedy `.*?` up to
the lookahead, and `atStart` is true only at the start of the whole string
(the `^` alternative).  A match at a `\n` consumes the newline itself. -/
def removeMetaAux (lead : List Char → Option Nat) :
    (skip : Nat) → (inMatch : Bool) → (atStart : Bool) → List Char → List Char
  | _, _, _, [] => []
  | skip + 1, inMatch, _, _ :: rest => removeMetaAux lead skip inMatch false rest
  | 0, inMatch, atStart, c :: rest =>
      if inMatch && !(isLabelAtCI (c :: rest) || (c = '\n' && rest.isEmpty)) then
        removeMetaAux lead 0 true false rest
      else if atStart && (lead (c :: rest)).isSome then
        removeMetaAux lead ((lead (c :: rest)).getD 1 - 1) true false rest
      else if c = '\n' && (lead rest).isSome then
        removeMetaAux lead ((lead rest).getD 0) true false rest
      else c :: removeMetaAux lead 0 false false rest

/-- One meta-commentary removal pass (steps 5-7,
`podcast_pipeline.py:1460-1462`). -/
def removeMeta (lead : List Char → Option Nat) (s : List Char) : List Char :=
  removeMetaAux lead 0 false true s

/-- Regex `\n\s*SOURCES FOUND:` (case-insensitive) matches at the head. -/
def srcPat1 : List Char → Bool
  | [] => false
  | c :: rest => c = '\n' && leadsWithCI "sources found:".toList (lstrip rest)

/-- Regex `\n\s*\*\*SOURCES FOUND:\*\*` (case-insensitive) matches at the
head. -/
def srcPat2 : List Char → Bool
  | [] => false
  | c :: rest => c = '\n' && leadsWithCI "**sources found:**".toList (lstrip rest)

/-- Regex `\n\s*##\s*SOURCES FOUND:` (case-insensitive) matches at the
head. -/
def srcPat3 : List Char → Bool
  | [] => false
  | c :: rest =>
      c = '\n' && leadsWith ['#', '#'] (lstrip rest)
        && leadsWithCI "sources found:".toList (lstrip ((lstrip rest).drop 2))

/-- Index of the first position whose suffix satisfies `p` (`re.search`). -/
def findIdxWhere (p : List Char → Bool) : List Char → Option Nat
  | [] => if p [] then some 0 else none
  | s@(_ :: rest) => if p s then some 0 else (findIdxWhere p rest).map (· + 1)

/-- Step 8 (`podcast_pipeline.py:1464-1478`): try the three sources
patterns in order; on the first one found, cut everything from the match
start onward. -/
def truncateAtSources (s : List Char) : List Char :=
  match findIdxWhere srcPat1 s with
  | some i => s.take i
  | none =>
      match findIdxWhere srcPat2 s with
      | some i => s.take i
      | none =>
          match findIdxWhere srcPat3 s with
          | some i => s.take i
          | none => s

/-- Head is a whitespace character. -/
def headIsWs : List Char → Bool
  | c :: _ => isPyWs c
  | [] => false

/-- Regex `^-{3,}$` under `re.MULTILINE`: a line of three or more dashes. -/
def isSeparatorLine (l : List Char) : Bool :=
  decide (3 ≤ l.length) && l.all (· = '-')

/-- Step 9 (`podcast_pipeline.py:1493`): blank out separator lines. -/
def removeSeparators (s : List Char) : List Char :=
  joinNl ((splitNl s).map (fun l => if isSeparatorLine l then [] else l))

/-- Regex `^#+\s+.*$` under `re.MULTILINE`: a markdown header line. -/
def isHeaderLine : List Char → Bool
  | [] => false
  | c :: rest => c = '#' && headIsWs ((c :: rest).dropWhile (· = '#'))

/-- Step 10 (`podcast_pipeline.py:1497`): blank out markdown headers. -/
def removeHeaders (s : List Char) : List Char :=
  joinNl ((splitNl s).map (fun l => if isHeaderLine l then [] else l))

/-- Regex `^\*[^\[]*\*$` under `re.MULTILINE`: an italicised
stage-direction line with no bracket tag inside. -/
def isStageLine : List Char → Bool
  | [] => false
  | c :: rest =>
      c = '*' && !rest.isEmpty && rest.getLast? = some '*'
        && rest.dropLast.all (· ≠ '[')

/-- Step 11 (`podcast_pipeline.py:1500`): blank out stage directions. -/
def removeStageDirections (s : List Char) : List Char :=
  joinNl ((splitNl s).map (fun l => if isStageLine l then [] else l))

/-- Skip one optional `*`. -/
def skipStar : List Char → List Char
  | [] => []
  | c :: r => if c = '*' then r else c :: r

/-- Skip one optional `:`. -/
def skipColon : List Char → List Char
  | [] => []
  | c :: r => if c = ':' then r else c :: r

/-- Skip one optional case-insensitive `s`. -/
def skipS : List Char → List Char
  | [] => []
  | c :: r => if lowChar c = 's' then r else c :: r

/-- Skip one optional `~`. -/
def skipTilde : List Char → List Char
  | [] => []
  | c :: r => if c = '~' then r else c :: r

/-- Regex `^\s*\*?\*?Word count:?\s*\d+\s*words?\*?\*?\s*$`
(`re.MULTILINE|re.IGNORECASE`, `podcast_pipeline.py:1503`) matches the
whole line. -/
def wordCountLineA (l : List Char) : Bool :=
  let s1 := skipStar (skipStar (lstrip l))
  if leadsWithCI "word count".toList s1 then
    let s3 := lstrip (skipColon (s1.drop 10))
    let d := s3.takeWhile Char.isDigit
    if d.isEmpty then false
    else
      let s4 := lstrip (s3.drop d.length)
      if leadsWithCI "word".toList s4 then
        (lstrip (skipStar (skipStar (skipS (s4.drop 4))))).isEmpty
      else false
  else false

/-- Regex `^\s*\*?\*?(?:Total|Approximate)?\s*(?:script\s+)?(?:length|count)?:?\s*~?\d+\s*words?\*?\*?\s*$`
(`re.MULTILINE|re.IGNORECASE`, `podcast_pipeline.py:1504`) matches the
whole line.  The optional groups are deterministic here because skipping a
present keyword always fails at the digit requirement. -/
def wordCountLineB (l : List Char) : Bool :=
  let s1 := skipStar (skipStar (lstrip l))
  let s2 :=
    if leadsWithCI "total".toList s1 then s1.drop 5
    else if leadsWithCI "approximate".toList s1 then s1.drop 11
    else s1
  let s3 := lstrip s2
  let s4 :=
    if leadsWithCI "script".toList s3 && headIsWs (s3.drop 6) then lstrip (s3.drop 6)
    else s3
  let s5 :=
    if leadsWithCI "length".toList s4 then s4.drop 6
    else if leadsWithCI "count".toList s4 then s4.drop 5
    else s4
  let s6 := skipTilde (lstrip (skipColon s5))
  let d := s6.takeWhile Char.isDigit
  if d.isEmpty then false
  else
    let s7 := lstrip (s6.drop d.length)
    if leadsWithCI "word".toList s7 then
      (lstrip (skipStar (skipStar (skipS (s7.drop 4))))).isEmpty
    else false

/-- Steps 12-13 (`podcast_pipeline.py:1503-1504`): blank out word-count
lines of either shape. -/
def removeWordCounts (s : List Char) : List Char :=
  let s1 := joinNl ((splitNl s).map (fun l => if wordCountLineA l then [] else l))
  joinNl ((splitNl s1).map (fun l => if wordCountLineB l then [] else l))

/-- Step 14 (`podcast_pipeline.py:1505`): regex `Total script length:.*$`
(`re.MULTILINE|re.IGNORECASE`) — cut each line at the marker. -/
def truncTotalScriptLength (s : List Char) : List Char :=
  joinNl ((splitNl s).map (fun l =>
    match findSubCI "total script length:".toList l with
    | some i => l.take i
    | none => l))

/-- Scanner for `re.sub(r'\n{3,}', '\n\n', s)`: on meeting a run of three
or more newlines, emit two and switch to `dropNl` mode, which swallows the
rest of the run. -/
def collapseNlGo : (dropNl : Bool) → List Char → List Char
  | _, [] => []
  | true, c :: rest =>
      if c = '\n' then collapseNlGo true rest else c :: collapseNlGo false rest
  | false, c :: rest =>
      if c = '\n' && leadsWith ['\n', '\n'] rest then
        '\n' :: '\n' :: collapseNlGo true rest
      else c :: collapseNlGo false rest

/-- Step 15 (`podcast_pipeline.py:1508`): `re.sub(r'\n{3,}', '\n\n', s)`. -/
def collapseNl (s : List Char) : List Char := collapseNlGo false s

/-- Python `clean_script_for_audio(script)` (`podcast_pipeline.py:1430-1517`):
the full ordered composition, ending with `strip()`. -/
def clean_script_for_audio (script : List Char) : List Char :=
  pyStrip (collapseNl (truncTotalScriptLength (removeWordCounts
    (removeStageDirections (removeHeaders (removeSeparators (truncateAtSources
      (removeMeta leadNowIll (removeMeta leadLetMe (removeMeta leadIll
        (removeEnclosed "<search>".toList "</search>".toList
          (removeEnclosed "<search_quality_score>".toList "</search_quality_score>".toList
            (removeEnclosed "<search_quality_check>".toList "</search_quality_check>".toList
              (cutBeforeFirstLabel script))))))))))))))

/-! ## Final safety check in `main` (`podcast_pipeline.py` 2930-2956)

After normalization, `main` re-scans for the sources marker; if present it
attempts an emergency cut (only when the marker index is positive) and then
proceeds to call `generate_audio` — pausing for user confirmation only when
a numbered bold list is detected. -/

/-- Regex `\n\d+\.\s+\*\*` matches at the head. -/
def numberedBoldAt : List Char → Bool
  | [] => false
  | c :: rest =>
      c = '\n' &&
        (let d := rest.takeWhile Char.isDigit
         !d.isEmpty &&
           (match rest.drop d.length with
            | [] => false
            | c2 :: r2 =>
                c2 = '.' &&
                  (let w := r2.takeWhile isPyWs
                   !w.isEmpty && leadsWith ['*', '*'] (r2.drop w.length))))

/-- Python `re.search(r'\n\d+\.\s+\*\*', s)` (`podcast_pipeline.py:2943`). -/
def hasNumberedBold (s : List Char) : Bool := (findIdxWhere numberedBoldAt s).isSome

/-- The emergency block of `main` (`podcast_pipeline.py:2932-2941`):
`if 'SOURCES FOUND' in script.upper(): idx = script.upper().find('SOURCES
FOUND'); if idx > 0: script = script[:idx]`. -/
def finalSafetyCheck (script : List Char) : List Char :=
  if containsSub "SOURCES FOUND".toList (pyUpper script) then
    match findSub "SOURCES FOUND".toList (pyUpper script) with
    | some idx => if 0 < idx then script.take idx else script
    | none => script
  else script

/-- What `main` submits to `generate_audio` (`podcast_pipeline.py:2930-2956`)
given the already-normalized script: `none` only when the numbered-list
warning fires and the user declines; in every other case the (possibly
emergency-cut) script is sent. -/
def mainAudioSubmission (script_for_audio : List Char) (userContinues : Bool) :
    Option (List Char) :=
  let s := finalSafetyCheck script_for_audio
  if hasNumberedBold s then (if userContinues then some s else none) else some s

/-- The audio gate of `main` from the raw script: normalization, the final
safety check, then submission. -/
def mainAudioGate (script : List Char) (userContinues : Bool) : Option (List Char) :=
  mainAudioSubmission (clean_script_for_audio script) userContinues

/-! ## Normalized dialogue form (specification side, for claim C9)

The shape `clean_script_for_audio` is meant to produce: every line is a
literal speaker-labelled dialogue line with none of the removable
patterns left.  Text of this shape is a fixed point of the normalizer. -/

/-- Every newline in `t` is immediately followed by a speaker label. -/
def afterNlOk : List Char → Bool
  | [] => true
  | c :: rest => (if c = '\n' then isLabelAt rest else true) && afterNlOk rest

/-- Modelled from the spec (section 4.4): text already in normalized form.
Every line begins with a literal `Speaker A:`/`Speaker B:` label, no
sources marker, no `Total script length` footer, no angle-bracket markup,
and no trailing whitespace. -/
def normalizedDialogue (t : List Char) : Bool :=
  isLabelAt t && afterNlOk t
    && (splitNl t).all
        (fun l => isLabelAt l && !containsCI "total script length:".toList l)
    && !containsCI "sources found".toList t
    && !t.contains '<'
    && (match t.getLast? with
        | some c => !isPyWs c
        | none => false)

/-! ## Theorems and proofs -/

theorem splitNl_ne_nil (s : List Char) : splitNl s ≠ [] := by
  cases s with
  | nil => simp [splitNl]
  | cons c rest =>
      simp only [splitNl]
      split
      · simp
      · split <;> simp

theorem joinNl_cons_cons (c : Char) (l : List Char) (ls : List (List Char)) :
    joinNl ((c :: l) :: ls) = c :: joinNl (l :: ls) := by
  cases ls <;> simp [joinNl, List.intercalate, List.intersperse]

theorem joinNl_splitNl (s : List Char) : joinNl (splitNl s) = s := by
  induction s with
  | nil => simp [splitNl, joinNl, List.intercalate]
  | cons c rest ih =>
      simp only [splitNl]
      by_cases hc : c = '\n'
      · subst hc
        simp only [if_pos rfl]
        cases h : splitNl rest with
        | nil => exact absurd h (splitNl_ne_nil rest)
        | cons l ls =>
            rw [h] at ih
            simpa [joinNl, List.intercalate] using ih
      · rw [if_neg hc]
        cases h : splitNl rest with
        | nil => exact absurd h (splitNl_ne_nil rest)
        | cons l ls =>
            rw [h] at ih
            rw [joinNl_cons_cons, ih]

theorem chunkLen_nil : chunkLen [] = 0 := rfl

theorem chunkLen_append (a b : List DialogueInput) :
    chunkLen (a ++ b) = chunkLen a + chunkLen b := by
  simp [chunkLen]

theorem chunkGo_good (max_chars : Nat) (inputs : List DialogueInput) :
    ∀ cur len, len = chunkLen cur → (cur ≠ [] → GoodChunk max_chars cur) →
      ∀ c ∈ chunkGo max_chars inputs cur len, GoodChunk max_chars c := by
  induction inputs with
  | nil =>
      intro cur len _ hgood c hc
      simp only [chunkGo] at hc
      split at hc
      · rename_i hne
        simp only [List.mem_singleton] at hc
        exact hc ▸ hgood hne
      · simp at hc
  | cons item rest ih =>
      intro cur len hlen hgood c hc
      simp only [chunkGo] at hc
      split at hc
      · rename_i hcond
        rcases List.mem_cons.mp hc with hceq | hmem
        · exact hceq ▸ hgood hcond.2
        · refine ih [item] item.text.length (by simp [chunkLen]) ?_ c hmem
          intro _
          by_cases hbig : max_chars < item.text.length
          · exact Or.inr ⟨item, rfl, hbig⟩
          · exact Or.inl (by simp [chunkLen]; omega)
      · rename_i hcond
        refine ih (cur ++ [item]) (len + item.text.length)
          (by simp [chunkLen_append, hlen, chunkLen]) ?_ c hc
        intro _
        rcases Decidable.not_and_iff_or_not.mp hcond with hle | hnil
        · exact Or.inl (by
            rw [chunkLen_append, ← hlen]
            simp only [chunkLen, List.map_cons, List.map_nil, List.sum_cons, List.sum_nil]
            omega)
        · have hc0 : cur = [] := by
            by_contra hne
            exact hnil hne
          subst hc0
          by_cases hbig : max_chars < item.text.length
          · exact Or.inr ⟨item, by simp, hbig⟩
          · exact Or.inl (by simp [chunkLen]; omega)

theorem chunkGo_join (max_chars : Nat) (inputs : List DialogueInput) :
    ∀ cur len, (chunkGo max_chars inputs cur len).flatten = cur ++ inputs := by
  induction inputs with
  | nil =>
      intro cur len
      simp only [chunkGo]
      split <;> simp_all
  | cons item rest ih =>
      intro cur len
      simp only [chunkGo]
      split
      · simp [List.flatten_cons, ih]
      · simp [ih]

theorem chunkGo_ne_nil (max_chars : Nat) (inputs : List DialogueInput) :
    ∀ cur len, cur ≠ [] ∨ inputs ≠ [] →
      ∀ c ∈ chunkGo max_chars inputs cur len, c ≠ [] := by
  induction inputs with
  | nil =>
      intro cur len _ c hc
      simp only [chunkGo] at hc
      split at hc
      · simp only [List.mem_singleton] at hc
        simp_all
      · simp at hc
  | cons item rest ih =>
      intro cur len _ c hc
      simp only [chunkGo] at hc
      split at hc
      · rename_i hcond
        rcases List.mem_cons.mp hc with hceq | hmem
        · exact hceq ▸ hcond.2
        · exact ih [item] item.text.length (Or.inl (by simp)) c hmem
      · exact ih (cur ++ [item]) (len + item.text.length) (Or.inl (by simp)) c hc

/-! ### Section planner: claims C2 and C8 -/

theorem pyInt_eq_floor (q : ℚ) (h : 0 ≤ q) : pyInt q = ⌊q⌋ := by
  unfold pyInt
  rw [if_neg (not_lt.mpr h)]

theorem num_sections_pos (W B : ℕ) (hW : 0 < W) (hB : 0 < B) :
    0 < num_sections W B := by
  unfold num_sections
  exact Int.ceil_pos.mpr (div_pos (by exact_mod_cast hW) (by exact_mod_cast hB))

theorem num_sections_1001 : num_sections 1001 1000 = 2 := by
  unfold num_sections
  rw [Int.ceil_eq_iff]
  constructor <;> norm_num

theorem words_per_section_1001 : words_per_section 1001 1000 (10001 / 10000) = 500 := by
  unfold words_per_section
  rw [num_sections_1001]
  unfold pyInt
  rw [if_neg (by norm_num)]
  rw [Int.floor_eq_iff]
  constructor <;> norm_num

theorem num_sections_1075 : num_sections 1075 500 = 3 := by
  unfold num_sections
  rw [Int.ceil_eq_iff]
  constructor <;> norm_num

theorem words_per_section_1075 : words_per_section 1075 500 (7 / 5) = 501 := by
  unfold words_per_section
  rw [num_sections_1075]
  unfold pyInt
  rw [if_neg (by norm_num)]
  rw [Int.floor_eq_iff]
  constructor <;> norm_num

theorem spec_words_per_section_1075 : spec_words_per_section 1075 500 (7 / 5) = 502 := by
  unfold spec_words_per_section
  rw [num_sections_1075, round_eq]
  rw [Int.floor_eq_iff]
  constructor <;> norm_num

theorem num_sections_1200 : num_sections 1200 500 = 3 := by
  unfold num_sections
  rw [Int.ceil_eq_iff]
  constructor <;> norm_num

theorem words_per_section_1200 : words_per_section 1200 500 (7 / 5) = 560 := by
  unfold words_per_section
  rw [num_sections_1200]
  unfold pyInt
  rw [if_neg (by norm_num)]
  rw [Int.floor_eq_iff]
  constructor <;> norm_num

theorem words_per_section_eq_floor (W B : ℕ) (f : ℚ) (hW : 0 < W) (hB : 0 < B)
    (hf : 1 < f) :
    words_per_section W B f = ⌊((W : ℚ) / ((num_sections W B : ℤ) : ℚ)) * f⌋ := by
  have hn : 0 < num_sections W B := num_sections_pos W B hW hB
  have hnQ : (0 : ℚ) < ((num_sections W B : ℤ) : ℚ) := by exact_mod_cast hn
  unfold words_per_section
  exact pyInt_eq_floor _ (mul_nonneg (div_nonneg (by positivity) hnQ.le) (by linarith))

/-- C2: the claim asserts `words_per_section * num_sections ≥ W` for all
`W > 0`, `B > 0`, `f > 1`.  At `W = 1001`, `B = 1000`, `f = 1.0001` the
code computes `num_sections = 2` and `words_per_section = int(500.5 *
1.0001) = 500`, so the product is `1000 < 1001`: the summed targets
under-cover the total. -/
theorem c2_word_budget_counterexample :
    0 < (1001 : ℕ) ∧ 0 < (1000 : ℕ) ∧ 1 < ((10001 : ℚ) / 10000) ∧
      num_sections 1001 1000 = 2 ∧
      words_per_section 1001 1000 (10001 / 10000) = 500 ∧
      words_per_section 1001 1000 (10001 / 10000) * num_sections 1001 1000 < 1001 := by
  refine ⟨by norm_num, by norm_num, by norm_num, num_sections_1001,
    words_per_section_1001, ?_⟩
  rw [num_sections_1001, words_per_section_1001]
  norm_num

/-- C2 (amended): for all `W > 0`, `B > 0`, `f > 1`, the planner produces
`num_sections = ceil(W / B)` sections, and because `words_per_section` is
`int(...)` truncation rather than rounding up, the summed target satisfies
only `words_per_section * num_sections > W - num_sections` — coverage of
the full `W` can fall short by up to `num_sections - 1` words. -/
theorem c2_word_budget_amended (W B : ℕ) (f : ℚ) (hW : 0 < W) (hB : 0 < B)
    (hf : 1 < f) :
    num_sections W B = ⌈(W : ℚ) / (B : ℚ)⌉ ∧
      (W : ℤ) < words_per_section W B f * num_sections W B + num_sections W B := by
  refine ⟨rfl, ?_⟩
  have hn : 0 < num_sections W B := num_sections_pos W B hW hB
  have hnQ : (0 : ℚ) < ((num_sections W B : ℤ) : ℚ) := by exact_mod_cast hn
  have hwps := words_per_section_eq_floor W B f hW hB hf
  have hx0 : (0 : ℚ) ≤ (W : ℚ) / ((num_sections W B : ℤ) : ℚ) :=
    div_nonneg (by positivity) hnQ.le
  have h1 : (W : ℚ) / ((num_sections W B : ℤ) : ℚ)
      ≤ (W : ℚ) / ((num_sections W B : ℤ) : ℚ) * f :=
    le_mul_of_one_le_right hx0 hf.le
  have h2 : (W : ℚ) / ((num_sections W B : ℤ) : ℚ) * ((num_sections W B : ℤ) : ℚ)
      < ((⌊(W : ℚ) / ((num_sections W B : ℤ) : ℚ) * f⌋ : ℚ) + 1)
          * ((num_sections W B : ℤ) : ℚ) :=
    mul_lt_mul_of_pos_right (lt_of_le_of_lt h1 (Int.lt_floor_add_one _)) hnQ
  rw [div_mul_cancel₀ _ (ne_of_gt hnQ)] at h2
  have h3 : (W : ℚ)
      < ((words_per_section W B f * num_sections W B + num_sections W B : ℤ) : ℚ) := by
    rw [hwps]
    push_cast
    ring_nf
    ring_nf at h2
    linarith
  exact_mod_cast h3

/-- Witness for `c2_word_budget_amended` at `W = 7`, `B = 4`,
`f = 3 / 2`. -/
theorem c2_word_budget_amended_witness :
    num_sections 7 4 = ⌈(7 : ℚ) / (4 : ℚ)⌉ ∧
      (7 : ℤ) < words_per_section 7 4 (3 / 2) * num_sections 7 4 + num_sections 7 4 :=
  c2_word_budget_amended 7 4 (3 / 2) (by norm_num) (by norm_num) (by norm_num)

/-- C8: the claim asserts `words_per_section = round((W / num_sections) *
f)`.  At `W = 1075`, `B = 500`, `f = 1.4` the exact value is
`501.66…`: the code truncates to 501 while the specified formula rounds to
502.  (The `W = 1200` scenario itself is exact and unaffected.) -/
theorem c8_planner_formula_counterexample :
    0 < (1075 : ℕ) ∧ 0 < (500 : ℕ) ∧ 1 < ((7 : ℚ) / 5) ∧
      words_per_section 1075 500 (7 / 5) = 501 ∧
      spec_words_per_section 1075 500 (7 / 5) = 502 := by
  refine ⟨by norm_num, by norm_num, by norm_num, words_per_section_1075,
    spec_words_per_section_1075⟩

/-- C8 (amended): the planner computes `num_sections = ceil(W / B)` and
`words_per_section = int((W / num_sections) * f)` — truncation toward
zero, not `round(...)`; for `W = 1200`, `B = 500`, `f = 1.4` it yields
`num_sections = 3` and `words_per_section = 560` as the scenario states. -/
theorem c8_planner_formula_amended (W B : ℕ) (f : ℚ) (hW : 0 < W) (hB : 0 < B)
    (hf : 1 < f) :
    num_sections W B = ⌈(W : ℚ) / (B : ℚ)⌉ ∧
      words_per_section W B f = ⌊((W : ℚ) / ((num_sections W B : ℤ) : ℚ)) * f⌋ ∧
      num_sections 1200 500 = 3 ∧ words_per_section 1200 500 (7 / 5) = 560 :=
  ⟨rfl, words_per_section_eq_floor W B f hW hB hf, num_sections_1200,
    words_per_section_1200⟩

/-- Witness for `c8_planner_formula_amended` at the scenario values. -/
theorem c8_planner_formula_amended_witness :
    num_sections 1200 500 = ⌈(1200 : ℚ) / (500 : ℚ)⌉ ∧
      words_per_section 1200 500 (7 / 5)
        = ⌊((1200 : ℚ) / ((num_sections 1200 500 : ℤ) : ℚ)) * (7 / 5)⌋ ∧
      num_sections 1200 500 = 3 ∧ words_per_section 1200 500 (7 / 5) = 560 :=
  c8_planner_formula_amended 1200 500 (7 / 5) (by norm_num) (by norm_num) (by norm_num)

/-! ### Synthesis retry policy: claim C1 -/

theorem elevenlabsChunkTry_succ (net : Nat → NetResponse) (fuel a : Nat) :
    elevenlabsChunkTry net (fuel + 1) a
      = match net a with
        | .status code body =>
            if code = 200 then (some body, a + 1)
            else if code = 500 ∧ a < 2 then elevenlabsChunkTry net fuel (a + 1)
            else if 400 ≤ code ∧ code < 600 then
              if a < 2 then elevenlabsChunkTry net fuel (a + 1)
              else (none, a + 1)
            else (some body, a + 1)
        | .connectionError =>
            if a < 2 then elevenlabsChunkTry net fuel (a + 1) else (none, a + 1)
        | .timeout =>
            if a < 2 then elevenlabsChunkTry net fuel (a + 1) else (none, a + 1) := rfl

theorem legacyChunkTry_succ (net : Nat → NetResponse) (fuel a : Nat) :
    legacyChunkTry net (fuel + 1) a
      = match net a with
        | .status code body =>
            if code = 200 then (some body, a + 1)
            else if code = 500 ∧ a < 2 then legacyChunkTry net fuel (a + 1)
            else if 400 ≤ code ∧ code < 600 then
              if a < 2 then legacyChunkTry net fuel (a + 1)
              else (none, a + 1)
            else (some body, a + 1)
        | .connectionError =>
            if a < 2 then legacyChunkTry net fuel (a + 1) else (none, a + 1)
        | .timeout =>
            if a < 2 then legacyChunkTry net fuel (a + 1) else (none, a + 1) := rfl

theorem cartesiaSegmentTry_succ (net : Nat → NetResponse) (fuel a : Nat) :
    cartesiaSegmentTry net (fuel + 1) a
      = match net a with
        | .status code body =>
            if code = 200 then (some body, a + 1) else (none, a + 1)
        | .connectionError =>
            if a < 2 then cartesiaSegmentTry net fuel (a + 1) else (none, a + 1)
        | .timeout => (none, a + 1) := rfl

theorem elevenlabsChunkTry_attempts_le (net : Nat → NetResponse) :
    ∀ fuel attempt, (elevenlabsChunkTry net fuel attempt).2 ≤ attempt + fuel := by
  intro fuel
  induction fuel with
  | zero => intro a; simp [elevenlabsChunkTry]
  | succ fuel ih =>
      intro a
      simp only [elevenlabsChunkTry]
      cases net a with
      | status code body =>
          dsimp only
          split_ifs <;> first
            | exact le_trans (ih (a + 1)) (by omega)
            | omega
      | connectionError =>
          dsimp only
          split_ifs <;> first
            | exact le_trans (ih (a + 1)) (by omega)
            | omega
      | timeout =>
          dsimp only
          split_ifs <;> first
            | exact le_trans (ih (a + 1)) (by omega)
            | omega

theorem legacyChunkTry_attempts_le (net : Nat → NetResponse) :
    ∀ fuel attempt, (legacyChunkTry net fuel attempt).2 ≤ attempt + fuel := by
  intro fuel
  induction fuel with
  | zero => intro a; simp [legacyChunkTry]
  | succ fuel ih =>
      intro a
      simp only [legacyChunkTry]
      cases net a with
      | status code body =>
          dsimp only
          split_ifs <;> first
            | exact le_trans (ih (a + 1)) (by omega)
            | omega
      | connectionError =>
          dsimp only
          split_ifs <;> first
            | exact le_trans (ih (a + 1)) (by omega)
            | omega
      | timeout =>
          dsimp only
          split_ifs <;> first
            | exact le_trans (ih (a + 1)) (by omega)
            | omega

theorem cartesiaSegmentTry_attempts_le (net : Nat → NetResponse) :
    ∀ fuel attempt, (cartesiaSegmentTry net fuel attempt).2 ≤ attempt + fuel := by
  intro fuel
  induction fuel with
  | zero => intro a; simp [cartesiaSegmentTry]
  | succ fuel ih =>
      intro a
      simp only [cartesiaSegmentTry]
      cases net a with
      | status code body =>
          dsimp only
          split_ifs <;> omega
      | connectionError =>
          dsimp only
          split_ifs <;> first
            | exact le_trans (ih (a + 1)) (by omega)
            | omega
      | timeout =>
          dsimp only
          omega

/-- C1: the claim asserts 4xx validation errors abort immediately with no
further attempt, and 5xx responses are retried.  In the code, a 400
response raises `HTTPError`, which the ElevenLabs and legacy handlers
catch and retry — here a 400 followed by a 200 yields success after two
attempts.  Conversely the Cartesia executor returns `None` on its first
attempt for a 503 server error instead of retrying it. -/
theorem c1_retry_policy_counterexample :
    elevenlabsChunkRun (fun n => if n = 0 then .status 400 [] else .status 200 [7])
        = (some [7], 2) ∧
      legacyChunkRun (fun n => if n = 0 then .status 400 [] else .status 200 [7])
        = (some [7], 2) ∧
      cartesiaSegmentRun (fun _ => .status 503 []) = (none, 1) := by
  refine ⟨by decide, by decide, by decide⟩

/-- C1 (amended): every chunk request is bounded by at most 3 attempts,
but the error classes are not separated as claimed: the ElevenLabs and
legacy executors retry every error status in `[400, 600)` — 4xx validation
errors included — because `raise_for_status` lands in the same
`RequestException` handler as timeouts and connection errors; the Cartesia
executor aborts on its first attempt for every non-200 status, 5xx
included, and retries only connection-level errors. -/
theorem c1_retry_policy_amended (net : Nat → NetResponse) (c : Nat) (b : List Nat)
    (h4 : 400 ≤ c) (h6 : c < 600) (hn : net 0 = .status c b) :
    (elevenlabsChunkRun net).2 ≤ 3 ∧ (legacyChunkRun net).2 ≤ 3 ∧
      (cartesiaSegmentRun net).2 ≤ 3 ∧
      elevenlabsChunkRun net = elevenlabsChunkTry net 2 1 ∧
      legacyChunkRun net = legacyChunkTry net 2 1 ∧
      cartesiaSegmentRun net = (none, 1) ∧
      (∀ net2 : Nat → NetResponse, net2 0 = .connectionError →
        cartesiaSegmentRun net2 = cartesiaSegmentTry net2 2 1) := by
  refine ⟨elevenlabsChunkTry_attempts_le net 3 0, legacyChunkTry_attempts_le net 3 0,
    cartesiaSegmentTry_attempts_le net 3 0, ?_, ?_, ?_, ?_⟩
  · have h1 : elevenlabsChunkTry net (2 + 1) 0 = elevenlabsChunkTry net 2 1 := by
      rw [elevenlabsChunkTry_succ, hn]
      dsimp only
      split_ifs <;> first | rfl | omega
    exact h1
  · have h1 : legacyChunkTry net (2 + 1) 0 = legacyChunkTry net 2 1 := by
      rw [legacyChunkTry_succ, hn]
      dsimp only
      split_ifs <;> first | rfl | omega
    exact h1
  · have h1 : cartesiaSegmentTry net (2 + 1) 0 = (none, 0 + 1) := by
      rw [cartesiaSegmentTry_succ, hn]
      dsimp only
      split_ifs <;> first | rfl | omega
    exact h1
  · intro net2 hconn
    have h1 : cartesiaSegmentTry net2 (2 + 1) 0 = cartesiaSegmentTry net2 2 1 := by
      rw [cartesiaSegmentTry_succ, hconn]
      dsimp only
      rw [if_pos (by omega)]
    exact h1

/-- Witness for `c1_retry_policy_amended`: a 404 on the first attempt. -/
theorem c1_retry_policy_amended_witness :
    (elevenlabsChunkRun (fun _ => .status 404 [])).2 ≤ 3 ∧
      (legacyChunkRun (fun _ => .status 404 [])).2 ≤ 3 ∧
      (cartesiaSegmentRun (fun _ => .status 404 [])).2 ≤ 3 ∧
      elevenlabsChunkRun (fun _ => .status 404 [])
        = elevenlabsChunkTry (fun _ => .status 404 []) 2 1 ∧
      legacyChunkRun (fun _ => .status 404 [])
        = legacyChunkTry (fun _ => .status 404 []) 2 1 ∧
      cartesiaSegmentRun (fun _ => .status 404 []) = (none, 1) ∧
      (∀ net2 : Nat → NetResponse, net2 0 = .connectionError →
        cartesiaSegmentRun net2 = cartesiaSegmentTry net2 2 1) :=
  c1_retry_policy_amended (fun _ => .status 404 []) 404 [] (by norm_num) (by norm_num) rfl

/-! ### Transition synthesizer fallback: claim C7 -/

/-- C7 (confirmed): when the rewrite call to the generation service fails,
`synthesize_single_transition` returns exactly the naive concatenation —
the joined before-window lines, a newline, then the joined after-window
lines — regardless of whether the windows collide on the same speaker. -/
theorem c7_transition_fallback (svc : Bool → Option (List Char))
    (segments_before segments_after : List ScriptSeg)
    (hfail : svc (transitionCollision segments_before segments_after) = none) :
    synthesize_single_transition svc segments_before segments_after
      = joinNl (segments_before.map ScriptSeg.line)
          ++ '\n' :: joinNl (segments_after.map ScriptSeg.line) := by
  simp only [synthesize_single_transition, hfail]

/-- Witness for `c7_transition_fallback`: two colliding one-line windows. -/
theorem c7_transition_fallback_witness :
    synthesize_single_transition (fun _ => none)
        [⟨'A', "Speaker A: bye".toList⟩] [⟨'A', "Speaker A: hi again".toList⟩]
      = joinNl ([(⟨'A', "Speaker A: bye".toList⟩ : ScriptSeg)].map ScriptSeg.line)
          ++ '\n' :: joinNl ([(⟨'A', "Speaker A: hi again".toList⟩ : ScriptSeg)].map ScriptSeg.line) :=
  c7_transition_fallback (fun _ => none) _ _ rfl

/-! ### Chunker: claims C4 and C10 -/

/-- C4 (confirmed): every chunk produced by `chunk_dialogue` has summed
text length at most the character budget, except possibly a chunk that is
exactly one segment whose own text exceeds the budget; a segment is never
split. -/
theorem c4_chunk_budget (inputs : List DialogueInput) (max_chars : Nat)
    (c : List DialogueInput) (hc : c ∈ chunk_dialogue inputs max_chars) :
    chunkLen c ≤ max_chars ∨ ∃ x, c = [x] ∧ max_chars < x.text.length :=
  chunkGo_good max_chars inputs [] 0 rfl (fun h => absurd rfl h) c hc

/-- Witness for `c4_chunk_budget`: the first chunk of a two-chunk split. -/
theorem c4_chunk_budget_witness :
    chunkLen [⟨"v1", "hello".toList⟩] ≤ 5 ∨
      ∃ x, [(⟨"v1", "hello".toList⟩ : DialogueInput)] = [x] ∧ 5 < x.text.length :=
  c4_chunk_budget [⟨"v1", "hello".toList⟩, ⟨"v2", "wide world".toList⟩] 5
    [⟨"v1", "hello".toList⟩] (by decide)

/-- C10 (confirmed): chunking is a lossless order-preserving partition —
concatenating the chunks in order gives back the input list, and for a
non-empty input every returned chunk is non-empty. -/
theorem c10_chunk_partition (inputs : List DialogueInput) (max_chars : Nat) :
    (chunk_dialogue inputs max_chars).flatten = inputs ∧
      (inputs ≠ [] → ∀ c ∈ chunk_dialogue inputs max_chars, c ≠ []) := by
  constructor
  · simpa using chunkGo_join max_chars inputs [] 0
  · intro h c hc
    exact chunkGo_ne_nil max_chars inputs [] 0 (Or.inr h) c hc

/-- Witness for `c10_chunk_partition` on a concrete two-segment input. -/
theorem c10_chunk_partition_witness :
    (chunk_dialogue [⟨"v1", "ab".toList⟩, ⟨"v2", "cde".toList⟩] 3).flatten
        = [⟨"v1", "ab".toList⟩, ⟨"v2", "cde".toList⟩] ∧
      ([(⟨"v1", "ab".toList⟩ : DialogueInput)] : List DialogueInput) ≠ [] :=
  ⟨(c10_chunk_partition [⟨"v1", "ab".toList⟩, ⟨"v2", "cde".toList⟩] 3).1,
    (c10_chunk_partition [⟨"v1", "ab".toList⟩, ⟨"v2", "cde".toList⟩] 3).2 (by decide)
      [⟨"v1", "ab".toList⟩] (by decide)⟩

/-! ### Mid-utterance split: claim C5 -/

/-- C5: the claim asserts the two segments carry tags `[x]` and `[y]`.
The split itself is right — two segments for speaker A with clean texts
`hello` and `world` — but `x` and `y` are not in the Cartesia emotion
table, so both segments are emitted with no emotion annotation at all
(`mapped_emotions` keeps only table entries). -/
theorem c5_mid_split_counterexample :
    splitTextAtEmotions "[x] hello [y] world".toList
        = [([], "hello".toList), ([], "world".toList)] ∧
      cartesia_parse_script_to_dialogue "Speaker A: [x] hello [y] world".toList
        = [⟨.speaker_a, "hello".toList, none⟩, ⟨.speaker_a, "world".toList, none⟩] := by
  refine ⟨by decide, by decide⟩

/-- C5 (amended): parsing `Speaker A: [x] hello [y] world` yields exactly
two segments for speaker A with texts `hello` and `world` and no bracket
markup — the mid-utterance tag forces the split — but each tag contributes
only its emotion-table mapping: `x` and `y` are absent from the table, so
both segments carry an empty emotion annotation, while table tags such as
`[excited]`/`[curious]` are carried as their mapped
(category, intensity) values. -/
theorem c5_mid_split_amended :
    cartesia_parse_script_to_dialogue "Speaker A: [x] hello [y] world".toList
        = [⟨.speaker_a, "hello".toList, none⟩, ⟨.speaker_a, "world".toList, none⟩] ∧
      splitTextAtEmotions "[excited] hello [curious] world".toList
        = [([("positivity", "highest")], "hello".toList),
           ([("curiosity", "high")], "world".toList)] ∧
      cartesia_parse_script_to_dialogue "Speaker A: [excited] hello [curious] world".toList
        = [⟨.speaker_a, "hello".toList, some ("positivity", "highest")⟩,
           ⟨.speaker_a, "world".toList, some ("curiosity", "high")⟩] := by
  refine ⟨by decide, by decide, by decide⟩

/-! ### Final safety check: claim C3 -/

/-- C3: the claim asserts a hard stop — no synthesis request before the
violation is resolved.  The script `SOURCES FOUND: secret citation`
survives normalization unchanged (the truncation patterns are
newline-anchored and cannot match position 0), the emergency cut is skipped
because `idx > 0` is false at index 0, and `main` submits the script to
audio generation with the marker still present. -/
theorem c3_safety_net_counterexample :
    containsSub "SOURCES FOUND".toList
        (pyUpper (clean_script_for_audio "SOURCES FOUND: secret citation".toList)) = true ∧
      mainAudioGate "SOURCES FOUND: secret citation".toList false
        = some "SOURCES FOUND: secret citation".toList ∧
      containsSub "SOURCES FOUND".toList
        (pyUpper "SOURCES FOUND: secret citation".toList) = true := by
  refine ⟨by decide, by decide, by decide⟩

/-- C3 (amended): when the normalized script still contains the marker,
the run is not hard-stopped.  If the first occurrence of `SOURCES FOUND`
in the uppercased script is at a positive index, `main` performs an
emergency truncation at that index and proceeds to submit the truncated
script; if the marker sits at index 0 the script is submitted unchanged,
marker included — submission is unconditional apart from the unrelated
numbered-list confirmation prompt. -/
theorem c3_safety_net_amended (s : List Char) (i : Nat)
    (hfind : findSub "SOURCES FOUND".toList (pyUpper s) = some i) :
    (0 < i → finalSafetyCheck s = s.take i) ∧
      (i = 0 → finalSafetyCheck s = s) ∧
      (hasNumberedBold (finalSafetyCheck s) = false →
        ∀ u, mainAudioSubmission s u = some (finalSafetyCheck s)) := by
  have hcon : containsSub "SOURCES FOUND".toList (pyUpper s) = true := by
    unfold containsSub
    rw [hfind]
    rfl
  refine ⟨?_, ?_, ?_⟩
  · intro hi
    unfold finalSafetyCheck
    rw [if_pos hcon, hfind]
    dsimp only
    rw [if_pos hi]
  · intro hi
    subst hi
    unfold finalSafetyCheck
    rw [if_pos hcon, hfind]
    dsimp only
    rw [if_neg (lt_irrefl 0)]
  · intro hnb u
    simp only [mainAudioSubmission, hnb]
    rw [if_neg (by simp)]

/-- Witness for `c3_safety_net_amended`: marker at index 2 is emergency
cut and the cut script is still submitted. -/
theorem c3_safety_net_amended_witness :
    finalSafetyCheck "x SOURCES FOUND: y".toList = "x SOURCES FOUND: y".toList.take 2 ∧
      mainAudioSubmission "x SOURCES FOUND: y".toList false
        = some (finalSafetyCheck "x SOURCES FOUND: y".toList) :=
  ⟨(c3_safety_net_amended "x SOURCES FOUND: y".toList 2 (by decide)).1 (by norm_num),
    (c3_safety_net_amended "x SOURCES FOUND: y".toList 2 (by decide)).2.2 (by decide) false⟩

/-! ### Tag extraction invariants: claim C6 -/

theorem removeTagsGo_sublist (s : List Char) :
    ∀ skip, List.Sublist (removeTagsGo skip s) s := by
  induction s with
  | nil => intro skip; cases skip <;> simp [removeTagsGo]
  | cons c rest ih =>
      intro skip
      cases skip with
      | zero =>
          simp only [removeTagsGo]
          split
          · exact (ih _).trans (List.sublist_cons_self c rest)
          · exact (ih 0).cons₂ c
      | succ k =>
          simp only [removeTagsGo]
          exact (ih k).trans (List.sublist_cons_self c rest)

theorem hasTag_removeTagsGo (s : List Char) : ∀ skip, hasTag (removeTagsGo skip s) = false := by
  induction s with
  | nil => intro skip; cases skip <;> simp [removeTagsGo, hasTag]
  | cons c rest ih =>
      intro skip
      cases skip with
      | succ k => simpa only [removeTagsGo] using ih k
      | zero =>
          simp only [removeTagsGo]
          split
          · exact ih _
          · rename_i hnotag
            simp only [hasTag, Bool.or_eq_false_iff]
            refine ⟨?_, ih 0⟩
            by_cases hc : c = '['
            · subst hc
              have hnotag2 : tagAtHead ('[' :: rest) = false := by
                revert hnotag
                cases tagAtHead ('[' :: rest) <;> simp
              have hcases : (rest.takeWhile (· ≠ ']')).isEmpty = true
                  ∨ (rest.dropWhile (· ≠ ']')).isEmpty = true := by
                have h3 := hnotag2
                simp only [tagAtHead, decide_eq_true_eq, Bool.and_eq_false_iff,
                  Bool.not_eq_false'] at h3
                rcases h3 with (h3 | h3) | h3
                · simp at h3
                · exact Or.inl h3
                · exact Or.inr h3
              simp only [tagAtHead, Bool.and_eq_false_iff]
              rcases hcases with h | h
              · -- takeWhile on rest is empty: rest is empty or starts with ']'
                simp only [List.isEmpty_iff] at h
                cases rest with
                | nil => left; right; simp [removeTagsGo]
                | cons d r2 =>
                    have hd : d = ']' := by
                      by_contra hdne
                      simp [List.takeWhile_cons, hdne] at h
                    subst hd
                    left; right
                    have hstep : removeTagsGo 0 (']' :: r2) = ']' :: removeTagsGo 0 r2 := by
                      simp [removeTagsGo, tagAtHead]
                    rw [hstep]
                    simp [List.takeWhile_cons]
              · -- no closing bracket in rest at all
                simp only [List.isEmpty_iff, List.dropWhile_eq_nil_iff] at h
                right
                simp only [Bool.not_eq_false', List.isEmpty_iff,
                  List.dropWhile_eq_nil_iff]
                intro x hx
                exact h x ((removeTagsGo_sublist rest 0).subset hx)
            · simp [tagAtHead, hc]

theorem hasTag_removeTags (s : List Char) : hasTag (removeTags s) = false :=
  hasTag_removeTagsGo s 0

theorem hasTag_of_suffix {s t : List Char} (h : t <:+ s) (ht : hasTag t = true) :
    hasTag s = true := by
  induction s with
  | nil =>
      rw [List.suffix_nil.mp h] at ht
      simp [hasTag] at ht
  | cons c rest ih =>
      rcases List.suffix_cons_iff.mp h with heq | hsfx
      · rw [← heq]; exact ht
      · simp only [hasTag, Bool.or_eq_true]
        exact Or.inr (ih hsfx)

theorem dropWhile_append_of_ne_nil {p : Char → Bool} {l₁ : List Char} (l₂ : List Char)
    (h : l₁.dropWhile p ≠ []) :
    (l₁ ++ l₂).dropWhile p = l₁.dropWhile p ++ l₂ := by
  induction l₁ with
  | nil => simp at h
  | cons c rest ih =>
      by_cases hc : p c
      · simp only [List.cons_append, List.dropWhile_cons, hc, if_true]
        simp only [List.dropWhile_cons, hc, if_true] at h
        exact ih h
      · simp [List.dropWhile_cons, hc]

theorem takeWhile_append_of_ne_nil {p : Char → Bool} {l₁ : List Char} (l₂ : List Char)
    (h : l₁.dropWhile p ≠ []) :
    (l₁ ++ l₂).takeWhile p = l₁.takeWhile p := by
  induction l₁ with
  | nil => simp at h
  | cons c rest ih =>
      by_cases hc : p c
      · simp only [List.cons_append, List.takeWhile_cons, hc, if_true]
        simp only [List.dropWhile_cons, hc, if_true] at h
        rw [ih h]
      · simp [List.takeWhile_cons, hc]

theorem hasTag_append_right {t : List Char} (z : List Char) (ht : hasTag t = true) :
    hasTag (t ++ z) = true := by
  induction t with
  | nil => simp [hasTag] at ht
  | cons c rest ih =>
      simp only [hasTag, Bool.or_eq_true] at ht
      rcases ht with htag | hrest
      · simp only [List.cons_append, List.append_eq, hasTag, Bool.or_eq_true]
        left
        simp only [tagAtHead, Bool.and_eq_true, decide_eq_true_eq] at htag ⊢
        obtain ⟨⟨hc, htw⟩, hdw⟩ := htag
        have hdw2 : rest.dropWhile (· ≠ ']') ≠ [] := by
          simpa [List.isEmpty_iff] using hdw
        have htwa := takeWhile_append_of_ne_nil z hdw2
        have hdwa := dropWhile_append_of_ne_nil z hdw2
        simp only [List.append_eq] at htwa hdwa
        refine ⟨⟨hc, ?_⟩, ?_⟩
        · rw [htwa]
          exact htw
        · rw [hdwa]
          rcases List.exists_cons_of_ne_nil hdw2 with ⟨a, b, hab⟩
          rw [hab]
          simp
      · simp only [List.cons_append, List.append_eq, hasTag, Bool.or_eq_true]
        exact Or.inr (ih hrest)

theorem rstrip_append_decomp (u : List Char) :
    u = rstrip u ++ ((u.reverse.takeWhile isPyWs).reverse) := by
  unfold rstrip
  conv_rhs =>
    rw [← List.reverse_append, List.takeWhile_append_dropWhile, List.reverse_reverse]

theorem hasTag_rstrip {u : List Char} (h : hasTag (rstrip u) = true) : hasTag u = true := by
  have hd := rstrip_append_decomp u
  rw [hd]
  exact hasTag_append_right _ h

theorem hasTag_pyStrip {s : List Char} (h : hasTag (pyStrip s) = true) : hasTag s = true :=
  hasTag_of_suffix (List.dropWhile_suffix isPyWs) (hasTag_rstrip h)

theorem hasTag_pyStrip_removeTags (s : List Char) :
    hasTag (pyStrip (removeTags s)) = false := by
  cases h : hasTag (pyStrip (removeTags s)) with
  | false => rfl
  | true => exact absurd (hasTag_pyStrip h) (by simp [hasTag_removeTags])

theorem splitFoldStep_inv (text : List Char) (l : List (List Char × Nat × Nat)) :
    ∀ init : List (List (String × String) × List Char) × List (List Char) × Nat,
      (∀ p ∈ init.1, hasTag p.2 = false) →
      ∀ p ∈ (l.foldl (splitFoldStep text) init).1, hasTag p.2 = false := by
  induction l with
  | nil => intro init hinit p hp; exact hinit p hp
  | cons tg l2 ih =>
      intro init hinit p hp
      refine ih (splitFoldStep text init tg) ?_ p hp
      intro q hq
      simp only [splitFoldStep] at hq
      split at hq
      · exact hinit q hq
      · rcases List.mem_append.mp hq with hmem | hmem
        · exact hinit q hmem
        · simp only [List.mem_singleton] at hmem
          subst hmem
          exact hasTag_pyStrip_removeTags _

theorem splitTextAtEmotions_clean (text : List Char) :
    ∀ p ∈ splitTextAtEmotions text, hasTag p.2 = false ∨ p.2 = pyStrip text := by
  intro p hp
  simp only [splitTextAtEmotions] at hp
  split at hp
  · simp only [List.mem_singleton] at hp
    exact Or.inr (by rw [hp])
  · split at hp
    · split at hp
      · simp at hp
      · simp only [List.mem_singleton] at hp
        subst hp
        exact Or.inl (hasTag_pyStrip_removeTags _)
    · revert hp
      generalize hres : (List.foldl (splitFoldStep text) ([], _, 0) _) = res
      intro hp
      have hbase : ∀ q ∈ (res.1 : List (List (String × String) × List Char)),
          hasTag q.2 = false := by
        intro q hq
        rw [← hres] at hq
        exact splitFoldStep_inv text _ _ (by intro q hq; simp at hq) q hq
      split at hp
      · split at hp
        · simp only [List.mem_singleton] at hp
          exact Or.inr (by rw [hp])
        · exact Or.inl (hbase p hp)
      · split at hp
        · simp only [List.mem_singleton] at hp
          exact Or.inr (by rw [hp])
        · rcases List.mem_append.mp hp with hmem | hmem
          · exact Or.inl (hbase p hmem)
          · simp only [List.mem_singleton] at hmem
            subst hmem
            exact Or.inl (hasTag_pyStrip_removeTags _)

/-- C6: the claim asserts every emitted `DialogueSegment` has markup-free
text.  The ElevenLabs-format parsers deliberately keep bracket audio tags
inline (the source comments call stripping them a bug): parsing
`Speaker A: [excited] Hi` emits a segment whose text still contains the
complete tag `[excited]`. -/
theorem c6_markup_free_counterexample :
    parse_script_to_dialogue "Speaker A: [excited] Hi".toList
        = some [⟨.speaker_a, "[excited] Hi".toList⟩] ∧
      hasTag "[excited] Hi".toList = true := by
  refine ⟨by decide, by decide⟩

/-- C6 (amended): only the Cartesia provider extracts markup out of
segment text: `_extract_emotions` always returns text with every complete
`[tag]` removed, and every pair `_split_text_at_emotions` emits carries
either markup-free text or — in the degenerate fallback where every split
piece cleans to empty — the stripped raw line text.  The ElevenLabs-format
parsers (`providers/elevenlabs.py`, `podcast_pipeline.py`) intentionally
leave bracket tags inline in segment text for the synthesis API to
consume. -/
theorem c6_markup_extraction_amended :
    (∀ text : List Char, hasTag (extract_emotions text).2 = false) ∧
      (∀ (text : List Char) p, p ∈ splitTextAtEmotions text →
        hasTag p.2 = false ∨ p.2 = pyStrip text) ∧
      parse_script_to_dialogue "Speaker A: [excited] Hi".toList
        = some [⟨.speaker_a, "[excited] Hi".toList⟩] := by
  refine ⟨?_, ?_, by decide⟩
  · intro text
    exact hasTag_pyStrip_removeTags text
  · intro text p hp
    exact splitTextAtEmotions_clean text p hp

/-- Witness for `c6_markup_extraction_amended` on concrete segments. -/
theorem c6_markup_extraction_amended_witness :
    hasTag (extract_emotions "[excited] Hi".toList).2 = false ∧
      (hasTag ("hello".toList : List Char) = false ∨
        ("hello".toList : List Char) = pyStrip "[x] hello [y] world".toList) :=
  ⟨c6_markup_extraction_amended.1 "[excited] Hi".toList,
    c6_markup_extraction_amended.2.1 "[x] hello [y] world".toList ([], "hello".toList)
      (by decide)⟩

/-! ### Normalizer idempotence: claim C9 -/

theorem leadsWith_decomp {p : List Char} :
    ∀ {s : List Char}, leadsWith p s = true → s = p ++ s.drop p.length := by
  induction p with
  | nil => intro s _; simp
  | cons a as ih =>
      intro s h
      cases s with
      | nil => simp [leadsWith] at h
      | cons b bs =>
          simp only [leadsWith, Bool.and_eq_true, decide_eq_true_eq] at h
          obtain ⟨rfl, h2⟩ := h
          simp only [List.cons_append, List.length_cons, List.drop_succ_cons,
            List.cons.injEq, true_and]
          exact ih h2

theorem isLabelAt_shape {l : List Char} (h : isLabelAt l = true) :
    ∃ r, l = 'S' :: 'p' :: r := by
  simp only [isLabelAt, Bool.or_eq_true] at h
  rcases h with h | h
  · refine ⟨"eaker A:".toList ++ l.drop 10, ?_⟩
    conv_lhs => rw [leadsWith_decomp h]
    rfl
  · refine ⟨"eaker B:".toList ++ l.drop 10, ?_⟩
    conv_lhs => rw [leadsWith_decomp h]
    rfl

theorem afterNlOk_suffix {t : List Char} (h : afterNlOk t = true) :
    ∀ u, List.IsSuffix u t → afterNlOk u = true := by
  induction t with
  | nil =>
      intro u hu
      rw [List.suffix_nil.mp hu]
      rfl
  | cons c rest ih =>
      intro u hu
      have h2 : afterNlOk rest = true := by
        simp only [afterNlOk, Bool.and_eq_true] at h
        exact h.2
      rcases List.suffix_cons_iff.mp hu with rfl | hu2
      · exact h
      · exact ih h2 u hu2

theorem afterNl_label {t : List Char} (h : afterNlOk t = true)
    {u : List Char} (hu : List.IsSuffix ('\n' :: u) t) : isLabelAt u = true := by
  have h2 := afterNlOk_suffix h _ hu
  simp only [afterNlOk, Bool.and_eq_true] at h2
  simpa using h2.1

theorem leadIll_label {u : List Char} (h : isLabelAt u = true) : leadIll u = none := by
  obtain ⟨r, rfl⟩ := isLabelAt_shape h
  rfl

theorem leadLetMe_label {u : List Char} (h : isLabelAt u = true) : leadLetMe u = none := by
  obtain ⟨r, rfl⟩ := isLabelAt_shape h
  rfl

theorem leadNowIll_label {u : List Char} (h : isLabelAt u = true) : leadNowIll u = none := by
  obtain ⟨r, rfl⟩ := isLabelAt_shape h
  rfl

theorem cutBeforeFirstLabel_id {t : List Char} (h : isLabelAt t = true) :
    cutBeforeFirstLabel t = t := by
  cases t with
  | nil => rfl
  | cons c rest =>
      simp [cutBeforeFirstLabel, findLabelIdx, h]

theorem removeEnclosedGo_id (openT closeT p : List Char) (ho : openT = '<' :: p) :
    ∀ s : List Char, '<' ∉ s → removeEnclosedGo openT closeT 0 s = s := by
  intro s
  induction s with
  | nil => intro _; rfl
  | cons c rest ih =>
      intro hnotin
      have hc : c ≠ '<' := fun hceq => hnotin (hceq ▸ List.mem_cons_self c rest)
      have hrest : '<' ∉ rest := fun hm => hnotin (List.mem_cons_of_mem c hm)
      have hlw : leadsWith openT (c :: rest) = false := by
        rw [ho]
        simp only [leadsWith, Bool.and_eq_false_iff, decide_eq_false_iff_not]
        exact Or.inl (fun hx => hc hx.symm)
      simp only [removeEnclosedGo]
      rw [if_neg (by simp [hlw])]
      rw [ih hrest]

theorem removeEnclosed_id (openT closeT p : List Char) (ho : openT = '<' :: p)
    (t : List Char) (h : '<' ∉ t) : removeEnclosed openT closeT t = t :=
  removeEnclosedGo_id openT closeT p ho t h

theorem removeMetaAux_noMatch (lead : List Char → Option Nat) (t : List Char)
    (h : ∀ u, List.IsSuffix ('\n' :: u) t → lead u = none) :
    ∀ s, List.IsSuffix s t → removeMetaAux lead 0 false false s = s := by
  intro s
  induction s with
  | nil => intro _; rfl
  | cons c rest ih =>
      intro hs
      have hrest : List.IsSuffix rest t := (List.suffix_cons c rest).trans hs
      simp only [removeMetaAux]
      rw [if_neg (by simp)]
      rw [if_neg (by simp)]
      by_cases hc : c = '\n'
      · subst hc
        rw [if_neg (by simp [h rest hs])]
        rw [ih hrest]
      · rw [if_neg (by simp [hc])]
        rw [ih hrest]

theorem removeMeta_id (lead : List Char → Option Nat) (t : List Char)
    (h0 : lead t = none)
    (h : ∀ u, List.IsSuffix ('\n' :: u) t → lead u = none) :
    removeMeta lead t = t := by
  cases t with
  | nil => rfl
  | cons c rest =>
      show removeMetaAux lead 0 false true (c :: rest) = c :: rest
      simp only [removeMetaAux]
      rw [if_neg (by simp)]
      rw [if_neg (by simp [h0])]
      by_cases hc : c = '\n'
      · subst hc
        rw [if_neg (by simp [h rest (List.suffix_refl _)])]
        rw [removeMetaAux_noMatch lead ('\n' :: rest) h rest (List.suffix_cons _ _)]
      · rw [if_neg (by simp [hc])]
        rw [removeMetaAux_noMatch lead (c :: rest) h rest (List.suffix_cons _ _)]

theorem containsCI_suffix_false {pat : List Char} :
    ∀ t : List Char, containsCI pat t = false →
      ∀ u, List.IsSuffix u t → leadsWithCI pat u = false := by
  intro t
  induction t with
  | nil =>
      intro h u hu
      rw [List.suffix_nil.mp hu]
      cases pat with
      | nil => simp [containsCI, findSubCI] at h
      | cons a as => rfl
  | cons c rest ih =>
      intro h u hu
      simp only [containsCI, findSubCI] at h
      by_cases hl : leadsWithCI pat (c :: rest) = true
      · rw [if_pos hl] at h
        simp at h
      · have hrest : containsCI pat rest = false := by
          rw [if_neg hl] at h
          simpa [containsCI] using h
        rcases List.suffix_cons_iff.mp hu with rfl | hu2
        · cases hb : leadsWithCI pat (c :: rest) with
          | false => rfl
          | true => exact absurd hb hl
        · exact ih hrest u hu2

theorem leadsWithCI_mono {p q : List Char} :
    ∀ s, leadsWithCI (p ++ q) s = true → leadsWithCI p s = true := by
  induction p with
  | nil => intro s _; rfl
  | cons a as ih =>
      intro s h
      cases s with
      | nil =>
          rw [List.cons_append] at h
          simp [leadsWithCI] at h
      | cons b bs =>
          simp only [List.cons_append, leadsWithCI, Bool.and_eq_true] at h ⊢
          exact ⟨h.1, ih bs h.2⟩

theorem leadsWithCI_drop {p q : List Char} :
    ∀ s, leadsWithCI (p ++ q) s = true → leadsWithCI q (s.drop p.length) = true := by
  induction p with
  | nil => intro s h; simpa using h
  | cons a as ih =>
      intro s h
      cases s with
      | nil =>
          rw [List.cons_append] at h
          simp [leadsWithCI] at h
      | cons b bs =>
          simp only [List.cons_append, leadsWithCI, Bool.and_eq_true] at h
          simpa [List.drop_succ_cons] using ih bs h.2

theorem srcPat1_false {t : List Char} (h : containsCI "sources found".toList t = false) :
    ∀ u, List.IsSuffix u t → srcPat1 u = false := by
  intro u hu
  cases u with
  | nil => rfl
  | cons c rest =>
      simp only [srcPat1, Bool.and_eq_false_iff]
      by_cases hc : c = '\n'
      · right
        have hsfx : List.IsSuffix (lstrip rest) t :=
          (List.dropWhile_suffix isPyWs).trans ((List.suffix_cons c rest).trans hu)
        have hf := containsCI_suffix_false t h (lstrip rest) hsfx
        cases hlw : leadsWithCI "sources found:".toList (lstrip rest) with
        | false => rfl
        | true =>
            have h2 : leadsWithCI ("sources found".toList ++ [':']) (lstrip rest) = true := hlw
            have h3 := leadsWithCI_mono _ h2
            rw [hf] at h3
            exact absurd h3 (by simp)
      · left
        simp [hc]

theorem srcPat2_false {t : List Char} (h : containsCI "sources found".toList t = false) :
    ∀ u, List.IsSuffix u t → srcPat2 u = false := by
  intro u hu
  cases u with
  | nil => rfl
  | cons c rest =>
      simp only [srcPat2, Bool.and_eq_false_iff]
      by_cases hc : c = '\n'
      · right
        have hsfx : List.IsSuffix ((lstrip rest).drop 2) t :=
          (List.drop_suffix 2 _).trans
            ((List.dropWhile_suffix isPyWs).trans ((List.suffix_cons c rest).trans hu))
        have hf := containsCI_suffix_false t h _ hsfx
        cases hlw : leadsWithCI "**sources found:**".toList (lstrip rest) with
        | false => rfl
        | true =>
            have h2 : leadsWithCI (['*', '*'] ++ "sources found:**".toList) (lstrip rest)
                = true := hlw
            have h3 := leadsWithCI_drop _ h2
            have h4 : leadsWithCI ("sources found".toList ++ ":**".toList)
                ((lstrip rest).drop 2) = true := h3
            have h5 := leadsWithCI_mono _ h4
            rw [hf] at h5
            exact absurd h5 (by simp)
      · left
        simp [hc]

theorem srcPat3_false {t : List Char} (h : containsCI "sources found".toList t = false) :
    ∀ u, List.IsSuffix u t → srcPat3 u = false := by
  intro u hu
  cases u with
  | nil => rfl
  | cons c rest =>
      simp only [srcPat3, Bool.and_eq_false_iff]
      right
      have hsfx : List.IsSuffix (lstrip ((lstrip rest).drop 2)) t :=
        (List.dropWhile_suffix isPyWs).trans ((List.drop_suffix 2 _).trans
          ((List.dropWhile_suffix isPyWs).trans ((List.suffix_cons c rest).trans hu)))
      have hf := containsCI_suffix_false t h _ hsfx
      cases hlw : leadsWithCI "sources found:".toList (lstrip ((lstrip rest).drop 2)) with
      | false => rfl
      | true =>
          have h2 : leadsWithCI ("sources found".toList ++ [':'])
              (lstrip ((lstrip rest).drop 2)) = true := hlw
          have h3 := leadsWithCI_mono _ h2
          rw [hf] at h3
          exact absurd h3 (by simp)

theorem findIdxWhere_none {p : List Char → Bool} :
    ∀ t : List Char, (∀ u, List.IsSuffix u t → p u = false) → findIdxWhere p t = none := by
  intro t
  induction t with
  | nil =>
      intro h
      unfold findIdxWhere
      rw [if_neg (by simp [h [] (List.suffix_refl _)])]
  | cons c rest ih =>
      intro h
      unfold findIdxWhere
      rw [if_neg (by simp [h _ (List.suffix_refl _)])]
      rw [ih (fun u hu => h u (hu.trans (List.suffix_cons c rest)))]
      rfl

theorem truncateAtSources_id {t : List Char}
    (h : containsCI "sources found".toList t = false) : truncateAtSources t = t := by
  unfold truncateAtSources
  rw [findIdxWhere_none t (srcPat1_false h), findIdxWhere_none t (srcPat2_false h),
    findIdxWhere_none t (srcPat3_false h)]

theorem map_id_of_forall {α : Type} (f : α → α) :
    ∀ ls : List α, (∀ a ∈ ls, f a = a) → ls.map f = ls := by
  intro ls
  induction ls with
  | nil => intro _; rfl
  | cons a as ih =>
      intro h
      simp only [List.map_cons, h a (List.mem_cons_self a as),
        ih (fun b hb => h b (List.mem_cons_of_mem a hb))]

theorem isSeparatorLine_label {l : List Char} (h : isLabelAt l = true) :
    isSeparatorLine l = false := by
  obtain ⟨r, rfl⟩ := isLabelAt_shape h
  have hall : ('S' :: 'p' :: r).all (· = '-') = false := rfl
  simp [isSeparatorLine, hall]

theorem isHeaderLine_label {l : List Char} (h : isLabelAt l = true) :
    isHeaderLine l = false := by
  obtain ⟨r, rfl⟩ := isLabelAt_shape h
  rfl

theorem isStageLine_label {l : List Char} (h : isLabelAt l = true) :
    isStageLine l = false := by
  obtain ⟨r, rfl⟩ := isLabelAt_shape h
  rfl

theorem wordCountLineA_label {l : List Char} (h : isLabelAt l = true) :
    wordCountLineA l = false := by
  obtain ⟨r, rfl⟩ := isLabelAt_shape h
  rfl

theorem wordCountLineB_label {l : List Char} (h : isLabelAt l = true) :
    wordCountLineB l = false := by
  obtain ⟨r, rfl⟩ := isLabelAt_shape h
  rfl

theorem removeSeparators_id {t : List Char}
    (h : ∀ l ∈ splitNl t, isLabelAt l = true) : removeSeparators t = t := by
  unfold removeSeparators
  rw [map_id_of_forall _ _ (fun l hl => by simp [isSeparatorLine_label (h l hl)]),
    joinNl_splitNl]

theorem removeHeaders_id {t : List Char}
    (h : ∀ l ∈ splitNl t, isLabelAt l = true) : removeHeaders t = t := by
  unfold removeHeaders
  rw [map_id_of_forall _ _ (fun l hl => by simp [isHeaderLine_label (h l hl)]),
    joinNl_splitNl]

theorem removeStageDirections_id {t : List Char}
    (h : ∀ l ∈ splitNl t, isLabelAt l = true) : removeStageDirections t = t := by
  unfold removeStageDirections
  rw [map_id_of_forall _ _ (fun l hl => by simp [isStageLine_label (h l hl)]),
    joinNl_splitNl]

theorem removeWordCounts_id {t : List Char}
    (h : ∀ l ∈ splitNl t, isLabelAt l = true) : removeWordCounts t = t := by
  have hA : joinNl ((splitNl t).map fun l => if wordCountLineA l then [] else l) = t := by
    rw [map_id_of_forall _ _ (fun l hl => by simp [wordCountLineA_label (h l hl)]),
      joinNl_splitNl]
  show joinNl ((splitNl (joinNl ((splitNl t).map
      fun l => if wordCountLineA l then [] else l))).map
        fun l => if wordCountLineB l then [] else l) = t
  rw [hA]
  rw [map_id_of_forall _ _ (fun l hl => by simp [wordCountLineB_label (h l hl)]),
    joinNl_splitNl]

theorem truncTotalScriptLength_id {t : List Char}
    (h : ∀ l ∈ splitNl t, containsCI "total script length:".toList l = false) :
    truncTotalScriptLength t = t := by
  have hline : ∀ l ∈ splitNl t,
      (match findSubCI "total script length:".toList l with
        | some i => l.take i
        | none => l) = l := by
    intro l hl
    have hc := h l hl
    cases hfs : findSubCI "total script length:".toList l with
    | none => rfl
    | some i =>
        rw [containsCI, hfs] at hc
        simp at hc
  unfold truncTotalScriptLength
  rw [map_id_of_forall _ _ hline, joinNl_splitNl]

theorem collapseNl_id : ∀ t : List Char, afterNlOk t = true → collapseNl t = t := by
  intro t
  unfold collapseNl
  induction t with
  | nil => intro _; rfl
  | cons c rest ih =>
      intro h
      have h2 : afterNlOk rest = true := by
        simp only [afterNlOk, Bool.and_eq_true] at h
        exact h.2
      by_cases hc : c = '\n'
      · subst hc
        have hlab : isLabelAt rest = true := by
          simp only [afterNlOk, Bool.and_eq_true] at h
          simpa using h.1
        obtain ⟨r, hr⟩ := isLabelAt_shape hlab
        have hlw : leadsWith ['\n', '\n'] rest = false := by rw [hr]; rfl
        simp only [collapseNlGo]
        rw [if_neg (by simp [hlw])]
        rw [ih h2]
      · simp only [collapseNlGo]
        rw [if_neg (by simp [hc])]
        rw [ih h2]

theorem lstrip_label {t : List Char} (h : isLabelAt t = true) : lstrip t = t := by
  obtain ⟨r, rfl⟩ := isLabelAt_shape h
  rfl

theorem rstrip_id {t : List Char}
    (h : (match t.getLast? with | some c => !isPyWs c | none => false) = true) :
    rstrip t = t := by
  unfold rstrip
  cases hr : t.reverse with
  | nil =>
      have ht : t = [] := List.reverse_eq_nil_iff.mp hr
      subst ht
      rfl
  | cons c rRest =>
      have hlast : t.getLast? = some c := by
        rw [← List.head?_reverse, hr]
        rfl
      rw [hlast] at h
      have hws : isPyWs c = false := by simpa using h
      rw [List.dropWhile_cons, hws]
      rw [if_neg (by simp)]
      rw [← hr, List.reverse_reverse]

theorem pyStrip_id {t : List Char} (h1 : isLabelAt t = true)
    (h6 : (match t.getLast? with | some c => !isPyWs c | none => false) = true) :
    pyStrip t = t := by
  unfold pyStrip
  rw [lstrip_label h1]
  exact rstrip_id h6

/-- C9: the normalizer is not idempotent.  Removing enclosed
`<search>...</search>` markup can splice a speaker label into existence,
so the second pass finds a label the first pass could not see and cuts the
leading junk that the first pass kept. -/
theorem c9_idempotent_counterexample :
    clean_script_for_audio (clean_script_for_audio
        "junk\nSpea<search>x</search>ker A: hi".toList)
      ≠ clean_script_for_audio "junk\nSpea<search>x</search>ker A: hi".toList := by
  decide

/-- C9 (amended): normalized dialogue text — every line a literal
`Speaker A:`/`Speaker B:` line, no sources marker, no
`Total script length:` footer, no angle-bracket markup, no trailing
whitespace — is a fixed point of `clean_script_for_audio`; the transform
is idempotent on its intended output shape but not on arbitrary input. -/
theorem c9_normalized_fixed_point (t : List Char) (h : normalizedDialogue t = true) :
    clean_script_for_audio t = t := by
  simp only [normalizedDialogue, Bool.and_eq_true] at h
  obtain ⟨⟨⟨⟨⟨h1, h2⟩, h3⟩, h4⟩, h5⟩, h6⟩ := h
  have hlines : ∀ l ∈ splitNl t, isLabelAt l = true := by
    intro l hl
    have hx := (List.all_eq_true.mp h3) l hl
    rw [Bool.and_eq_true] at hx
    exact hx.1
  have hlinesT : ∀ l ∈ splitNl t, containsCI "total script length:".toList l = false := by
    intro l hl
    have hx := (List.all_eq_true.mp h3) l hl
    rw [Bool.and_eq_true] at hx
    simpa using hx.2
  have h4x : containsCI "sources found".toList t = false := by simpa using h4
  have h5x : '<' ∉ t := by simpa using h5
  have hnl : ∀ u, List.IsSuffix ('\n' :: u) t → isLabelAt u = true :=
    fun u hu => afterNl_label h2 hu
  unfold clean_script_for_audio
  rw [cutBeforeFirstLabel_id h1]
  rw [removeEnclosed_id "<search_quality_check>".toList "</search_quality_check>".toList
    "search_quality_check>".toList rfl t h5x]
  rw [removeEnclosed_id "<search_quality_score>".toList "</search_quality_score>".toList
    "search_quality_score>".toList rfl t h5x]
  rw [removeEnclosed_id "<search>".toList "</search>".toList "search>".toList rfl t h5x]
  rw [removeMeta_id leadIll t (leadIll_label h1) (fun u hu => leadIll_label (hnl u hu))]
  rw [removeMeta_id leadLetMe t (leadLetMe_label h1) (fun u hu => leadLetMe_label (hnl u hu))]
  rw [removeMeta_id leadNowIll t (leadNowIll_label h1)
    (fun u hu => leadNowIll_label (hnl u hu))]
  rw [truncateAtSources_id h4x]
  rw [removeSeparators_id hlines]
  rw [removeHeaders_id hlines]
  rw [removeStageDirections_id hlines]
  rw [removeWordCounts_id hlines]
  rw [truncTotalScriptLength_id hlinesT]
  rw [collapseNl_id t h2]
  exact pyStrip_id h1 h6

/-- Witness for `c9_normalized_fixed_point`: a concrete two-line dialogue
in normalized form is left unchanged by the normalizer. -/
theorem c9_normalized_fixed_point_witness :
    normalizedDialogue "Speaker A: hi\nSpeaker B: yo".toList = true ∧
      clean_script_for_audio "Speaker A: hi\nSpeaker B: yo".toList
        = "Speaker A: hi\nSpeaker B: yo".toList :=
  ⟨by decide, c9_normalized_fixed_point _ (by decide)⟩

end Podcast
